import Mathlib

/-!
# go-grpc-middleware: tracing server reporter and logrus options

A shallow embedding of

* `interceptors/tracing/server.go` (the OpenTracing server reporter, the span
  builder `newServerSpanFromInbound`, and the two filtering interceptors),
* `providers/logrus/options.go` (option evaluation and the duration fields),
* the handler of `providers/zap/ctxzap/examples_test.go`.

Stateful Go code is written in explicit state-passing style over a `World`
that holds the mutable Tag Bags and a trace of every call made on the external
collaborators (tracer, spans, `grpclog`, the zap logger).
-/

namespace Middleware

/-! ## Go values -/

/-- Go `interface{}` values that occur in the embedded code. A `float32` carries
its exact rational value (rounding is not modelled); a `time.Duration` carries
its nanosecond count. -/
inductive Any where
  | nil
  | bool (b : Bool)
  | int (i : Int)
  | str (s : String)
  | float32 (q : ℚ)
  | duration (ns : Int)
  deriving DecidableEq

/-- Non-nil Go `error` values. Errors are compared by identity in the source
(`err != opentracing.ErrSpanContextNotFound`), so the sentinel is a constructor
of its own. -/
inductive GoError where
  | ErrSpanContextNotFound
  | other (msg : String)
  deriving DecidableEq

/-- The `Error()` method. -/
def GoError.Error : GoError → String
  | .ErrSpanContextNotFound => "opentracing: SpanContext not found in Extract carrier"
  | .other msg => msg

/-- Go `error`: `none` is `nil`. -/
abbrev error := Option GoError

/-- A Go function value of type `α`: `none` is the nil function. -/
abbrev Func (α : Type) := Option α

/-- Go `time.Duration`, a signed nanosecond count. -/
abbrev Duration := Int

/-- An iteration order of Go's `range` over a map: the runtime visits every
entry exactly once, in an order of its own choosing. -/
structure MapRange where
  order : List (String × Any) → List (String × Any)
  perm : ∀ l, (order l).Perm l

/-- The iteration order that visits the entries as stored. -/
def MapRange.stored : MapRange := ⟨fun l => l, fun l => List.Perm.refl l⟩

/-- The iteration order that visits the entries back to front. -/
def MapRange.reversed : MapRange := ⟨fun l => l.reverse, fun l => List.reverse_perm l⟩

/-! ## Tag Bag (`interceptors/tags`) -/

namespace ctxtags

/-- Write `k ↦ v` into an entry list: overwrite the entry of `k` in place when
there is one, append otherwise. -/
def setEntry (k : String) (v : Any) : List (String × Any) → List (String × Any)
  | [] => [(k, v)]
  | (k', v') :: rest => if k' = k then (k, v) :: rest else (k', v') :: setEntry k v rest

/-- The value stored under `k` in an entry list. -/
def lookupEntry (k : String) : List (String × Any) → Option Any
  | [] => none
  | (k', v') :: rest => if k' = k then some v' else lookupEntry k rest

/-- Modelled from the spec: the Tag Bag type of `interceptors/tags`, which is not
among the source files. Spec §3: a mapping from string key to value with unique
keys, last-write-wins, insertion order preserved. -/
structure Tags where
  entries : List (String × Any)
  nodup : (entries.map Prod.fst).Nodup

/-- Modelled from the spec: a bag with no entries. -/
def Tags.empty : Tags := ⟨[], List.nodup_nil⟩

/-- Modelled from the spec: `set(key, value)` of §4.1 on the bag's contents;
writing a new value for an existing key silently overwrites it. -/
def Tags.Set (t : Tags) (k : String) (v : Any) : Tags :=
  ⟨setEntry k v t.entries, by
    have keys : ∀ l : List (String × Any), (setEntry k v l).map Prod.fst =
        if k ∈ l.map Prod.fst then l.map Prod.fst else l.map Prod.fst ++ [k] := by
      intro l
      induction l with
      | nil => simp [setEntry]
      | cons p rest ih =>
        obtain ⟨k', v'⟩ := p
        by_cases h : k' = k
        · subst h; simp [setEntry]
        · have h' : ¬ k = k' := fun e => h e.symm
          by_cases hm : k ∈ rest.map Prod.fst
          · simp only [setEntry, if_neg h, List.map_cons, ih, if_pos hm, List.mem_cons, hm,
              or_true, if_true]
          · simp only [setEntry, if_neg h, List.map_cons, ih, if_neg hm, List.mem_cons, hm, h',
              or_self, if_false, List.cons_append]
    rw [keys]
    split
    · exact t.nodup
    · rename_i hk
      rw [List.nodup_append]
      refine ⟨t.nodup, List.nodup_singleton k, ?_⟩
      intro a ha hb
      simp only [List.mem_singleton] at hb
      subst hb
      exact hk ha⟩

/-- Modelled from the spec: `values()` of §4.1, a copy of the mapping. -/
def Tags.Values (t : Tags) : List (String × Any) := t.entries

/-- The value the bag holds under `k`. -/
def Tags.get (t : Tags) (k : String) : Option Any := lookupEntry k t.entries

end ctxtags

/-! ## Contexts, the external tracing API, and the world -/

/-- A reference to a Tag Bag on the heap. -/
abbrev TagsRef := Nat

/-- A handle to a span started by the tracer. -/
abbrev SpanRef := Nat

/-- An opaque propagated trace context (`opentracing.SpanContext`). -/
abbrev SpanContext := Nat

/-- gRPC metadata: header name to values. -/
abbrev MD := List (String × List String)

/-- A `context.Context` as far as the embedded code reads it: the incoming wire
metadata, the call's Tag Bag, the active span, and every other value. -/
structure Context where
  incoming : MD
  tags : TagsRef
  activeSpan : Option SpanRef
  values : List (String × Any)
  deriving DecidableEq

/-- A field of a span log record (`log.Field`). -/
structure Field where
  key : String
  value : Any
  deriving DecidableEq

namespace log

/-- `log.String(key, val)`. -/
def String (key val : String) : Field := ⟨key, .str val⟩

end log

/-- Options handed to `Tracer.StartSpan`. -/
inductive StartSpanOption where
  | RPCServerOption (client : Option SpanContext)
  | Tag (Key : String) (Value : Any)
  deriving DecidableEq

/-- Every call the embedded code makes on an external collaborator. -/
inductive Event where
  | startSpan (operationName : String) (opts : List StartSpanOption) (span : SpanRef)
  | setTag (span : SpanRef) (key : String) (value : Any)
  | logFields (span : SpanRef) (fields : List Field)
  | finish (span : SpanRef)
  | infof (msg : String)
  | zapInfo (msg : String)
  deriving DecidableEq

/-- The mutable state a call runs in: the Tag Bags and the trace of calls made
on the tracer, the spans and the loggers, oldest first. -/
structure World where
  bags : TagsRef → ctxtags.Tags
  trace : List Event

/-- A world with empty Tag Bags and an empty trace. -/
def World.init : World := ⟨fun _ => ctxtags.Tags.empty, []⟩

/-- Append events to the trace. -/
def World.emit (w : World) (es : List Event) : World := { w with trace := w.trace ++ es }

namespace ctxtags

/-- Modelled from the spec: `Extract(ctx)` of `interceptors/tags`, which is not
among the source files; it returns the Tag Bag attached to the call's context. -/
def Extract (ctx : Context) : TagsRef := ctx.tags

/-- Modelled from the spec: the chainable `Set` on a bag reference; it mutates
the bag in place and returns the same bag. -/
def Set (t : TagsRef) (k : String) (v : Any) (w : World) : TagsRef × World :=
  (t, { w with bags := fun r => if r = t then (w.bags t).Set k v else w.bags r })

/-- `Values()` on a bag reference. -/
def Values (t : TagsRef) (w : World) : List (String × Any) := (w.bags t).Values

end ctxtags

namespace opentracing

/-- The tracer backend (`opentracing.Tracer`), an external collaborator. Its
`Extract` over the metadata carrier returns a span context and an error, both
nilable as in Go. -/
structure Tracer where
  Extract : MD → Option SpanContext × error

/-- The number of spans started so far. -/
def spansStarted : List Event → Nat
  | [] => 0
  | .startSpan _ _ _ :: rest => spansStarted rest + 1
  | _ :: rest => spansStarted rest

/-- `tracer.StartSpan(operationName, opts...)`: the call is recorded and the
tracer hands out the next span handle. -/
def Tracer.StartSpan (_t : Tracer) (operationName : String) (opts : List StartSpanOption)
    (w : World) : SpanRef × World :=
  let span := spansStarted w.trace
  (span, w.emit [.startSpan operationName opts span])

/-- `span.SetTag(key, value)`. -/
def SetTag (span : SpanRef) (key : String) (value : Any) (w : World) : World :=
  w.emit [.setTag span key value]

/-- `span.LogFields(fields...)`. -/
def LogFields (span : SpanRef) (fields : List Field) (w : World) : World :=
  w.emit [.logFields span fields]

/-- `span.Finish()`. -/
def Finish (span : SpanRef) (w : World) : World :=
  w.emit [.finish span]

/-- `opentracing.ContextWithSpan(ctx, span)`: a context derived from `ctx` whose
active span is `span`. -/
def ContextWithSpan (ctx : Context) (span : SpanRef) : Context :=
  { ctx with activeSpan := some span }

/-- `opentracing.SpanFromContext(ctx)`. -/
def SpanFromContext (ctx : Context) : Option SpanRef := ctx.activeSpan

/-- What `StartSpan` makes of its options (`opentracing.StartSpanOptions`): the
child-of references and the initial tags. -/
structure StartSpanOptions where
  ChildOf : List SpanContext
  Tags : List (String × Any)
  deriving DecidableEq

/-- `StartSpanOption.Apply`. `ext.RPCServerOption(client)` adds a child-of
reference to `client` when it is not nil and always marks the span as an RPC
server span; a `Tag` sets its key. -/
def Apply : StartSpanOption → StartSpanOptions → StartSpanOptions
  | .RPCServerOption (some client), o =>
      { ChildOf := o.ChildOf ++ [client],
        Tags := ctxtags.setEntry "span.kind" (.str "server") o.Tags }
  | .RPCServerOption none, o =>
      { o with Tags := ctxtags.setEntry "span.kind" (.str "server") o.Tags }
  | .Tag k v, o => { o with Tags := ctxtags.setEntry k v o.Tags }

/-- The options of a `StartSpan` call, applied in argument order. -/
def applyAll (opts : List StartSpanOption) : StartSpanOptions :=
  opts.foldl (fun o opt => Apply opt o) ⟨[], []⟩

end opentracing

namespace ext

/-- `ext.Component`. -/
def Component : String := "component"

/-- `ext.Error`, the name of the error tag. -/
def Error : String := "error"

/-- `ext.Error.Set(span, value)` sets the boolean tag `error` on the span. -/
def ErrorSet (span : SpanRef) (value : Bool) (w : World) : World :=
  opentracing.SetTag span Error (.bool value) w

/-- `ext.RPCServerOption(client)`. -/
def RPCServerOption (client : Option SpanContext) : StartSpanOption :=
  .RPCServerOption client

end ext

namespace grpclog

/-- `grpclog.Infof(format, args...)` with the formatted message. -/
def Infof (msg : String) (w : World) : World := w.emit [.infof msg]

end grpclog

namespace metautils

/-- Modelled from the spec: `metautils.ExtractIncoming(ctx)`, which is not among
the source files; spec §4.2 step 1, read the wire metadata from the inbound
context. -/
def ExtractIncoming (ctx : Context) : MD := ctx.incoming

end metautils

/-! ## `interceptors/tracing/server.go` -/

namespace tracing

/-- The call kind (`interceptors.GRPCType`). -/
inductive GRPCType where
  | Unary
  | ClientStream
  | ServerStream
  | BidiStream
  deriving DecidableEq

/-- The fixed component tag. -/
def grpcTag : StartSpanOption := .Tag ext.Component (.str "gRPC")

/-- The conversion `metadataTextMap(md)` to the carrier type. -/
def metadataTextMap (md : MD) : MD := md

structure opentracingServerReporter where
  ctx : Context
  typ : GRPCType
  svcName : String
  methodName : String
  serverSpan : SpanRef
  deriving DecidableEq

/-- `PostCall`: copy the Tag Bag onto the span, flag and log the error if there
is one, finish the span. `range` is the order in which Go walks the map. -/
def opentracingServerReporter.PostCall (o : opentracingServerReporter) (err : error)
    (_d : Duration) (range : MapRange) (w : World) : World :=
  let tags := ctxtags.Extract o.ctx
  let w1 := (range.order (ctxtags.Values tags w)).foldl
    (fun w kv => opentracing.SetTag o.serverSpan kv.1 kv.2 w) w
  let w2 := match err with
    | some e =>
        opentracing.LogFields o.serverSpan
          [log.String "event" "error", log.String "message" e.Error]
          (ext.ErrorSet o.serverSpan true w1)
    | none => w1
  opentracing.Finish o.serverSpan w2

/-- `PostMsgSend` has an empty body. -/
def opentracingServerReporter.PostMsgSend (_o : opentracingServerReporter) (_msg : Any)
    (_err : error) (_d : Duration) (w : World) : World := w

/-- `PostMsgReceive` has an empty body. -/
def opentracingServerReporter.PostMsgReceive (_o : opentracingServerReporter) (_msg : Any)
    (_err : error) (_d : Duration) (w : World) : World := w

structure opentracingServerReportable where
  tracer : opentracing.Tracer
  traceHeaderName : String

/-- Modelled from the spec: `injectOpentracingIdsToTags`, which is not among the
source files; spec §4.2 step 4, copy every key/value currently in the call's Tag
Bag onto the span as tags. -/
def injectOpentracingIdsToTags (_traceHeaderName : String) (span : SpanRef) (tags : TagsRef)
    (range : MapRange) (w : World) : World :=
  (range.order (ctxtags.Values tags w)).foldl
    (fun w kv => opentracing.SetTag span kv.1 kv.2 w) w

def newServerSpanFromInbound (ctx : Context) (tracer : opentracing.Tracer)
    (traceHeaderName fullMethodName : String) (range : MapRange) (w : World) :
    (Context × SpanRef) × World :=
  let md := metautils.ExtractIncoming ctx
  let (parentSpanContext, err) := tracer.Extract (metadataTextMap md)
  let w1 :=
    match err with
    | some e =>
        if e ≠ GoError.ErrSpanContextNotFound then
          grpclog.Infof ("grpc_opentracing: failed parsing trace information: " ++ e.Error) w
        else w
    | none => w
  let (serverSpan, w2) := tracer.StartSpan fullMethodName
    [ext.RPCServerOption parentSpanContext, grpcTag] w1
  let w3 := injectOpentracingIdsToTags traceHeaderName serverSpan (ctxtags.Extract ctx) range w2
  ((opentracing.ContextWithSpan ctx serverSpan, serverSpan), w3)

def opentracingServerReportable.ServerReporter (o : opentracingServerReportable) (ctx : Context)
    (typ : GRPCType) (serviceName methodName : String) (range : MapRange) (w : World) :
    (opentracingServerReporter × Context) × World :=
  let ((newCtx, serverSpan), w1) :=
    newServerSpanFromInbound ctx o.tracer o.traceHeaderName
      ("/" ++ serviceName ++ "/" ++ methodName) range w
  let mock : opentracingServerReporter :=
    { ctx := newCtx, typ := typ, svcName := serviceName, methodName := methodName,
      serverSpan := serverSpan }
  ((mock, newCtx), w1)

/-- `grpc.UnaryServerInfo`. -/
structure UnaryServerInfo where
  Server : Any
  FullMethod : String

/-- `grpc.StreamServerInfo`. -/
structure StreamServerInfo where
  FullMethod : String
  IsClientStream : Bool
  IsServerStream : Bool

/-- A `grpc.ServerStream`: its `Context()` and the identity of the stream. -/
structure ServerStream where
  Context : Context
  id : Nat
  deriving DecidableEq

/-- `grpc.UnaryHandler`, running in a state of type `σ`. -/
abbrev UnaryHandler (σ : Type) := Context → Any → σ → (Any × error) × σ

/-- `grpc.UnaryServerInterceptor`. -/
abbrev UnaryInterceptor (σ : Type) :=
  Context → Any → UnaryServerInfo → UnaryHandler σ → σ → (Any × error) × σ

/-- `grpc.StreamHandler`. -/
abbrev StreamHandler (σ : Type) := Any → ServerStream → σ → error × σ

/-- `grpc.StreamServerInterceptor`. -/
abbrev StreamInterceptor (σ : Type) :=
  Any → ServerStream → StreamServerInfo → StreamHandler σ → σ → error × σ

/-- The call filter, `func(ctx, fullMethodName) bool`. -/
abbrev FilterFunc := Context → String → Bool

/-- The evaluated options of the tracing package as far as `server.go` reads
them; `filterOutFunc` may be nil. -/
structure options where
  filterOutFunc : Option FilterFunc
  tracer : opentracing.Tracer
  traceHeaderName : String

/-- `UnaryServerInterceptor(opts...)`. `evaluateOptions` and the generic
`interceptors.UnaryServerInterceptor` are declared outside the source files and
are taken as parameters. -/
def UnaryServerInterceptor {Opt σ : Type} (evaluateOptions : List Opt → options)
    (interceptorsUnary : opentracingServerReportable → UnaryInterceptor σ)
    (opts : List Opt) : UnaryInterceptor σ :=
  let o := evaluateOptions opts
  let inner := interceptorsUnary { tracer := o.tracer, traceHeaderName := o.traceHeaderName }
  fun ctx req info handler =>
    match o.filterOutFunc with
    | some filterOutFunc =>
        if !filterOutFunc ctx info.FullMethod then handler ctx req
        else inner ctx req info handler
    | none => inner ctx req info handler

/-- `StreamServerInterceptor(opts...)`, with the same parameters. -/
def StreamServerInterceptor {Opt σ : Type} (evaluateOptions : List Opt → options)
    (interceptorsStream : opentracingServerReportable → StreamInterceptor σ)
    (opts : List Opt) : StreamInterceptor σ :=
  let o := evaluateOptions opts
  let inner := interceptorsStream { tracer := o.tracer, traceHeaderName := o.traceHeaderName }
  fun srv stream info handler =>
    match o.filterOutFunc with
    | some filterOutFunc =>
        if !filterOutFunc stream.Context info.FullMethod then handler srv stream
        else inner srv stream info handler
    | none => inner srv stream info handler

end tracing

/-! ## `providers/zap/ctxzap/examples_test.go` -/

namespace ctxzap_test

/-- `l.Info(msg)` on the request-scoped zap logger. -/
def Info (msg : String) (w : World) : World := w.emit [.zapInfo msg]

/-- The unary handler of `ExampleExtract_unary`; the request and the response
are represented by their `Value`. -/
def ExampleExtract_unary (ctx : Context) (ping : Any) (w : World) : (Any × error) × World :=
  let (t, w1) := ctxtags.Set (ctxtags.Extract ctx) "custom_tags.string" (.str "something") w
  let (_, w2) := ctxtags.Set t "custom_tags.int" (.int 1337) w1
  let w3 := Info "some ping" w2
  let w4 := Info "another ping" w3
  ((ping, none), w4)

end ctxzap_test

/-! ## `providers/logrus/options.go` -/

namespace grpc_logrus

/-- `CodeToLevel`, a Go function value (`none` is nil) from `codes.Code` to
`logrus.Level`. -/
abbrev CodeToLevel := Option (Nat → Nat)

/-- `grpc_logging.Decider`, `func(fullMethodName string, err error) bool`. -/
abbrev Decider := Option (String → error → Bool)

/-- `grpc_logging.ErrorToCode`, `func(err error) codes.Code`. -/
abbrev ErrorToCode := Option (error → Nat)

/-- `DurationToField`, `func(duration time.Duration) (key string, value interface{})`. -/
abbrev DurationToField := Option (Duration → String × Any)

structure options where
  levelFunc : CodeToLevel
  shouldLog : Decider
  codeFunc : ErrorToCode
  durationFunc : DurationToField

/-- `duration.Nanoseconds()`. -/
def Nanoseconds (duration : Duration) : Int := duration

/-- `float32(duration.Nanoseconds()/1000) / 1000`: an integer division, which in
Go truncates toward zero, then a division of the converted value. -/
def durationToMilliseconds (duration : Duration) : ℚ :=
  ((Int.tdiv (Nanoseconds duration) 1000 : Int) : ℚ) / 1000

def DurationToTimeMillisField (duration : Duration) : String × Any :=
  ("grpc.time_ms", .float32 (durationToMilliseconds duration))

def DurationToDurationField (duration : Duration) : String × Any :=
  ("grpc.duration", .duration duration)

def DefaultDurationToField : DurationToField := some DurationToTimeMillisField

/-- Package-level functions that `options.go` names and that are declared
outside the source files. -/
structure Externals where
  DefaultDeciderMethod : Decider
  DefaultErrorToCode : ErrorToCode
  DefaultCodeToLevel : CodeToLevel
  DefaultClientCodeToLevel : CodeToLevel

/-- A pointer to an `options` struct: the one the package variable
`defaultOptions` points to, or one allocated by `&options{}`. -/
inductive Ptr where
  | defaultOptions
  | heap (n : Nat)
  deriving DecidableEq

/-- The `options` structs in memory. -/
structure Mem where
  defaultOptions : options
  heap : Nat → options
  allocated : Nat

/-- `*p`. -/
def Mem.read (m : Mem) : Ptr → options
  | .defaultOptions => m.defaultOptions
  | .heap n => m.heap n

/-- `*p = v`. -/
def Mem.write (m : Mem) (p : Ptr) (v : options) : Mem :=
  match p with
  | .defaultOptions => { m with defaultOptions := v }
  | .heap n => { m with heap := fun i => if i = n then v else m.heap i }

/-- `&options{}`: a new struct with every field nil. -/
def Mem.new (m : Mem) : Ptr × Mem :=
  (.heap m.allocated,
    { m with
      heap := fun i => if i = m.allocated then ⟨none, none, none, none⟩ else m.heap i
      allocated := m.allocated + 1 })

/-- The value `defaultOptions` is initialised with. -/
def defaultOptionsValue (x : Externals) : options :=
  { levelFunc := none
    shouldLog := x.DefaultDeciderMethod
    codeFunc := x.DefaultErrorToCode
    durationFunc := DefaultDurationToField }

/-- Memory after package initialisation. -/
def Mem.init (x : Externals) : Mem :=
  { defaultOptions := defaultOptionsValue x
    heap := fun _ => ⟨none, none, none, none⟩
    allocated := 0 }

/-- `type Option func(*options)`, a Go function value: `none` is a nil option. -/
abbrev Option := Func (Ptr → Mem → Mem)

/-- The loop `for _, o := range opts { o(optCopy) }`. Calling a nil function
value panics. -/
def callEach (optCopy : Ptr) : List Option → Mem → Except String Mem
  | [], m => .ok m
  | none :: _, _ => .error "invalid memory address or nil pointer dereference"
  | some o :: rest, m => callEach optCopy rest (o optCopy m)

/-- `evaluateServerOpt(opts)`: the pointer returned and the memory afterwards,
or the panic. -/
def evaluateServerOpt (x : Externals) (opts : List Option) (m : Mem) :
    Except String (Ptr × Mem) :=
  let (optCopy, m0) := m.new
  let m1 := m0.write optCopy (m0.read .defaultOptions)
  let m2 := m1.write optCopy { m1.read optCopy with levelFunc := x.DefaultCodeToLevel }
  match callEach optCopy opts m2 with
  | .ok m3 => .ok (optCopy, m3)
  | .error e => .error e

/-- `evaluateClientOpt(opts)`: the pointer returned and the memory afterwards,
or the panic. -/
def evaluateClientOpt (x : Externals) (opts : List Option) (m : Mem) :
    Except String (Ptr × Mem) :=
  let (optCopy, m0) := m.new
  let m1 := m0.write optCopy (m0.read .defaultOptions)
  let m2 := m1.write optCopy { m1.read optCopy with levelFunc := x.DefaultClientCodeToLevel }
  match callEach optCopy opts m2 with
  | .ok m3 => .ok (optCopy, m3)
  | .error e => .error e

def WithDecider (f : Decider) : Option :=
  some (fun o m => m.write o { m.read o with shouldLog := f })

def WithLevels (f : CodeToLevel) : Option :=
  some (fun o m => m.write o { m.read o with levelFunc := f })

def WithCodes (f : ErrorToCode) : Option :=
  some (fun o m => m.write o { m.read o with codeFunc := f })

def WithDurationField (f : DurationToField) : Option :=
  some (fun o m => m.write o { m.read o with durationFunc := f })

end grpc_logrus

/-! ## Observations on runs -/

/-- The invocations an instrumented run has made: the arguments of every
handler invocation, oldest first, and the number of invocations of the inner
reporting interceptor. -/
structure Calls (α : Type) where
  handler : List α
  inner : Nat

namespace tracing

/-- A unary handler that also records the arguments it is invoked with. -/
def recordUnaryHandler {σ : Type} (h : UnaryHandler σ) :
    UnaryHandler (σ × Calls (Context × Any)) :=
  fun ctx req s =>
    let r := h ctx req s.1
    (r.1, (r.2, { s.2 with handler := s.2.handler ++ [(ctx, req)] }))

/-- An inner unary interceptor that also counts its invocations. -/
def recordUnaryInner {σ α : Type}
    (inner : opentracingServerReportable → UnaryInterceptor (σ × Calls α)) :
    opentracingServerReportable → UnaryInterceptor (σ × Calls α) :=
  fun r ctx req info h s =>
    let res := inner r ctx req info h s
    (res.1, (res.2.1, { res.2.2 with inner := res.2.2.inner + 1 }))

/-- A stream handler that also records the arguments it is invoked with. -/
def recordStreamHandler {σ : Type} (h : StreamHandler σ) :
    StreamHandler (σ × Calls (Any × ServerStream)) :=
  fun srv stream s =>
    let r := h srv stream s.1
    (r.1, (r.2, { s.2 with handler := s.2.handler ++ [(srv, stream)] }))

/-- An inner stream interceptor that also counts its invocations. -/
def recordStreamInner {σ α : Type}
    (inner : opentracingServerReportable → StreamInterceptor (σ × Calls α)) :
    opentracingServerReportable → StreamInterceptor (σ × Calls α) :=
  fun r srv stream info h s =>
    let res := inner r srv stream info h s
    (res.1, (res.2.1, { res.2.2 with inner := res.2.2.inner + 1 }))

/-- A filter that excludes the health-check method. -/
def healthCheckFilter : FilterFunc :=
  fun _ fullMethod => fullMethod != "/grpc.health.v1.Health/Check"

/-- Options with the filter that excludes the health-check method. -/
def healthCheckExcluded : options :=
  { filterOutFunc := some healthCheckFilter
    tracer := ⟨fun _ => (none, some .ErrSpanContextNotFound)⟩
    traceHeaderName := "uber-trace-id" }

end tracing

/-- An inbound context with no metadata, Tag Bag 0 and no active span. -/
def Context.background : Context := ⟨[], 0, none, []⟩

/-- The events a run from `w` to `w'` has appended to the trace. -/
def added (w w' : World) : List Event := w'.trace.drop w.trace.length

/-- The value of tag `key` on `span` after a trace: the value of the last
`SetTag` for that key, if any. -/
def tagOf (span : SpanRef) (key : String) : List Event → Option Any
  | [] => none
  | e :: rest =>
    match tagOf span key rest with
    | some v => some v
    | none =>
      match e with
      | .setTag s k v => if s = span ∧ k = key then some v else none
      | _ => none

/-- The `SetTag` calls made on `span` in a trace, oldest first. -/
def tagsSet (span : SpanRef) : List Event → List (String × Any)
  | [] => []
  | .setTag s k v :: rest => if s = span then (k, v) :: tagsSet span rest else tagsSet span rest
  | _ :: rest => tagsSet span rest

/-- The log records `LogFields` has put on `span` in a trace, oldest first. -/
def logsOf (span : SpanRef) : List Event → List (List Field)
  | [] => []
  | .logFields s fs :: rest => if s = span then fs :: logsOf span rest else logsOf span rest
  | _ :: rest => logsOf span rest

/-- The number of `Finish` calls on `span` in a trace. -/
def finishCount (span : SpanRef) : List Event → Nat
  | [] => 0
  | .finish s :: rest => if s = span then finishCount span rest + 1 else finishCount span rest
  | _ :: rest => finishCount span rest

/-- The `StartSpan` calls in a trace: operation name, options and the handle
returned. -/
def startSpans : List Event → List (String × List StartSpanOption × SpanRef)
  | [] => []
  | .startSpan n o s :: rest => (n, o, s) :: startSpans rest
  | _ :: rest => startSpans rest

/-- The messages logged through `grpclog` in a trace. -/
def infoLines : List Event → List String
  | [] => []
  | .infof m :: rest => m :: infoLines rest
  | _ :: rest => infoLines rest

/-- The event is a `SetTag` or a `LogFields` call on `span`. -/
def Event.writesTo (span : SpanRef) : Event → Bool
  | .setTag s _ _ => s = span
  | .logFields s _ => s = span
  | _ => false

/-- A sequence of `Set` calls on one bag. -/
def applySets (t : TagsRef) (sets : List (String × Any)) (w : World) : World :=
  sets.foldl (fun w kv => (ctxtags.Set t kv.1 kv.2 w).2) w

/-- The value of the last `Set` for `key` in a sequence of `Set` calls. -/
def lastSet (key : String) (sets : List (String × Any)) : Option Any :=
  ctxtags.lookupEntry key sets.reverse

/-- The `SetTag` events that copy entries onto a span. -/
def copyEvents (span : SpanRef) (entries : List (String × Any)) : List Event :=
  entries.map (fun kv => Event.setTag span kv.1 kv.2)

/-- A message callback of the reporter. -/
inductive MsgCall where
  | send (msg : Any) (err : error) (d : Duration)
  | receive (msg : Any) (err : error) (d : Duration)

namespace tracing

/-- Run a sequence of message callbacks. -/
def runMsgs (o : opentracingServerReporter) (calls : List MsgCall) (w : World) : World :=
  calls.foldl (fun w c =>
    match c with
    | .send msg err d => o.PostMsgSend msg err d w
    | .receive msg err d => o.PostMsgReceive msg err d w) w

/-- A reporter lifecycle: message callbacks, then one `PostCall`. -/
def lifecycle (o : opentracingServerReporter) (calls : List MsgCall) (err : error)
    (d : Duration) (range : MapRange) (w : World) : World :=
  o.PostCall err d range (runMsgs o calls w)

/-- The events `PostCall` appends for an error. -/
def errorEvents (span : SpanRef) : error → List Event
  | some e =>
      [.setTag span "error" (.bool true),
       .logFields span [⟨"event", .str "error"⟩, ⟨"message", .str e.Error⟩]]
  | none => []

end tracing

namespace tracing

/-- A reporter on span 0 whose context carries Tag Bag 0. -/
def sampleReporter : opentracingServerReporter :=
  { ctx := opentracing.ContextWithSpan Context.background 0, typ := .Unary, svcName := "Echo",
    methodName := "Ping", serverSpan := 0 }

end tracing

namespace tracing

/-- The warning `newServerSpanFromInbound` logs for an extraction error. -/
def warning : error → List Event
  | some e =>
      if e ≠ GoError.ErrSpanContextNotFound then
        [.infof ("grpc_opentracing: failed parsing trace information: " ++ e.Error)]
      else []
  | none => []

/-- A tracer whose `Extract` finds no propagated context. -/
def tracerNotFound : opentracing.Tracer := ⟨fun _ => (none, some .ErrSpanContextNotFound)⟩

/-- A tracer whose `Extract` reports corrupted data and returns no context. -/
def tracerCorrupted : opentracing.Tracer := ⟨fun _ => (none, some (.other "corrupted"))⟩

/-- A tracer whose `Extract` reports corrupted data alongside the context 7. -/
def tracerCorruptedPartial : opentracing.Tracer :=
  ⟨fun _ => (some 7, some (.other "corrupted"))⟩

/-- A tracer whose `Extract` returns the context 0 alongside
`ErrSpanContextNotFound`. -/
def tracerNotFoundPartial : opentracing.Tracer :=
  ⟨fun _ => (some 0, some .ErrSpanContextNotFound)⟩

/-- A tracer whose `Extract` finds the propagated context 7. -/
def tracerFound : opentracing.Tracer := ⟨fun _ => (some 7, none)⟩

end tracing

namespace grpc_logrus

/-- A call of one of the four option constructors of `options.go`. -/
inductive Setting where
  | decider (f : Decider)
  | levels (f : CodeToLevel)
  | codes (f : ErrorToCode)
  | durationField (f : DurationToField)

/-- The `Option` value a constructor call returns. -/
def Setting.toOption : Setting → Option
  | .decider f => WithDecider f
  | .levels f => WithLevels f
  | .codes f => WithCodes f
  | .durationField f => WithDurationField f

/-- The change of one field that an option stands for, on an `options` value. -/
def Setting.update : Setting → options → options
  | .decider f, o => { o with shouldLog := f }
  | .levels f, o => { o with levelFunc := f }
  | .codes f, o => { o with codeFunc := f }
  | .durationField f, o => { o with durationFunc := f }

/-- An option written inside the package that assigns to the struct behind the
package variable `defaultOptions` instead of the struct it is given. -/
def overwritesDefault : Option :=
  some (fun _ m =>
    m.write .defaultOptions { m.read .defaultOptions with levelFunc := some (fun _ => 0) })

/-- Sample values for the functions declared outside `options.go`. -/
def sampleExternals : Externals :=
  { DefaultDeciderMethod := some (fun _ _ => true)
    DefaultErrorToCode := some (fun err => if err = none then 0 else 2)
    DefaultCodeToLevel := some (fun code => if code = 0 then 4 else 2)
    DefaultClientCodeToLevel := some (fun code => if code = 0 then 5 else 3) }

end grpc_logrus

/-! ## Theorems -/

open tracing in
/-- C1: when a filter is configured and returns false for the call's context and
`info.FullMethod`, the unary interceptor is the handler applied once to the
original `ctx` and `req`, and the streaming interceptor is the handler applied
once to the original `srv` and `stream`: same result, same effect on the state,
whatever the inner reporting interceptor is. On an instrumented run the handler
is recorded exactly once, with those arguments, and the inner interceptor is
not invoked. -/
theorem filtered_call_bypasses_reporting {Opt σ : Type}
    (evaluateOptions : List Opt → options) (opts : List Opt) (filter : FilterFunc)
    (hconf : (evaluateOptions opts).filterOutFunc = some filter)
    (ctx : Context) (req : Any) (info : UnaryServerInfo) (handler : UnaryHandler σ)
    (hunary : filter ctx info.FullMethod = false)
    (srv : Any) (stream : ServerStream) (sinfo : StreamServerInfo) (shandler : StreamHandler σ)
    (hstream : filter stream.Context sinfo.FullMethod = false) :
    (∀ (inner : opentracingServerReportable → UnaryInterceptor σ) (s : σ),
      UnaryServerInterceptor evaluateOptions inner opts ctx req info handler s
        = handler ctx req s) ∧
    (∀ (inner : opentracingServerReportable → UnaryInterceptor (σ × Calls (Context × Any)))
        (s : σ) (calls : Calls (Context × Any)),
      UnaryServerInterceptor evaluateOptions (recordUnaryInner inner) opts ctx req info
          (recordUnaryHandler handler) (s, calls)
        = ((handler ctx req s).1,
            ((handler ctx req s).2,
              { handler := calls.handler ++ [(ctx, req)], inner := calls.inner }))) ∧
    (∀ (inner : opentracingServerReportable → StreamInterceptor σ) (s : σ),
      StreamServerInterceptor evaluateOptions inner opts srv stream sinfo shandler s
        = shandler srv stream s) ∧
    (∀ (inner : opentracingServerReportable → StreamInterceptor (σ × Calls (Any × ServerStream)))
        (s : σ) (calls : Calls (Any × ServerStream)),
      StreamServerInterceptor evaluateOptions (recordStreamInner inner) opts srv stream sinfo
          (recordStreamHandler shandler) (s, calls)
        = ((shandler srv stream s).1,
            ((shandler srv stream s).2,
              { handler := calls.handler ++ [(srv, stream)], inner := calls.inner }))) := by
  refine ⟨?_, ?_, ?_, ?_⟩
  · intro inner s
    simp only [UnaryServerInterceptor, hconf, hunary, Bool.not_false, if_true]
  · intro inner s calls
    simp only [UnaryServerInterceptor, hconf, hunary, Bool.not_false, if_true, recordUnaryHandler]
  · intro inner s
    simp only [StreamServerInterceptor, hconf, hstream, Bool.not_false, if_true]
  · intro inner s calls
    simp only [StreamServerInterceptor, hconf, hstream, Bool.not_false, if_true,
      recordStreamHandler]

open tracing in
/-- Witness for C1: a health-check call under the filter that excludes it. -/
theorem filtered_call_bypasses_reporting_witness :
    healthCheckFilter Context.background "/grpc.health.v1.Health/Check" = false ∧
    ∀ (inner : opentracingServerReportable → UnaryInterceptor World) (s : World),
      UnaryServerInterceptor (fun _ : List Unit => healthCheckExcluded) inner []
          Context.background (.str "ping") ⟨.nil, "/grpc.health.v1.Health/Check"⟩
          ctxzap_test.ExampleExtract_unary s
        = ctxzap_test.ExampleExtract_unary Context.background (.str "ping") s :=
  ⟨by decide,
    (filtered_call_bypasses_reporting (fun _ : List Unit => healthCheckExcluded) []
      healthCheckFilter rfl Context.background (.str "ping")
      ⟨.nil, "/grpc.health.v1.Health/Check"⟩ ctxzap_test.ExampleExtract_unary (by decide)
      .nil ⟨Context.background, 0⟩ ⟨"/grpc.health.v1.Health/Check", false, true⟩
      (fun _ _ s => (none, s)) (by decide)).1⟩

/-! ### Trace lemmas -/

theorem foldl_setTag (span : SpanRef) (l : List (String × Any)) (w : World) :
    l.foldl (fun w kv => opentracing.SetTag span kv.1 kv.2 w) w = w.emit (copyEvents span l) := by
  induction l generalizing w with
  | nil => simp [World.emit, copyEvents]
  | cons kv rest ih =>
    rw [List.foldl_cons, ih]
    simp only [copyEvents, List.map_cons, opentracing.SetTag, World.emit,
      List.append_assoc, List.singleton_append]

theorem emit_emit (w : World) (a b : List Event) : (w.emit a).emit b = w.emit (a ++ b) := by
  simp [World.emit]

theorem added_emit (w : World) (es : List Event) : added w (w.emit es) = es := by
  simp [added, World.emit]

open tracing in
theorem postCall_eq (o : opentracingServerReporter) (err : error) (d : Duration)
    (range : MapRange) (w : World) :
    o.PostCall err d range w =
      w.emit (copyEvents o.serverSpan (range.order (ctxtags.Values (ctxtags.Extract o.ctx) w))
        ++ errorEvents o.serverSpan err ++ [.finish o.serverSpan]) := by
  cases err with
  | none =>
    simp only [opentracingServerReporter.PostCall, foldl_setTag, opentracing.Finish, emit_emit,
      errorEvents, List.append_nil]
  | some e =>
    simp only [opentracingServerReporter.PostCall, foldl_setTag, opentracing.Finish,
      opentracing.LogFields, ext.ErrorSet, ext.Error, emit_emit, errorEvents,
      log.String, List.append_assoc, List.singleton_append, List.cons_append, List.nil_append]
    simp only [opentracing.SetTag, emit_emit, List.singleton_append, List.append_assoc,
      List.cons_append, List.nil_append]

open tracing in
theorem runMsgs_eq (o : opentracingServerReporter) (calls : List MsgCall) (w : World) :
    runMsgs o calls w = w := by
  induction calls generalizing w with
  | nil => rfl
  | cons c rest ih =>
    cases c <;>
      simp only [runMsgs, List.foldl_cons, opentracingServerReporter.PostMsgSend,
        opentracingServerReporter.PostMsgReceive] <;> exact ih w

theorem finishCount_append (span : SpanRef) (a b : List Event) :
    finishCount span (a ++ b) = finishCount span a + finishCount span b := by
  induction a with
  | nil => simp [finishCount]
  | cons e rest ih =>
    rw [List.cons_append]
    cases e <;> simp only [finishCount, ih]
    split <;> omega

theorem finishCount_copyEvents (span s : SpanRef) (l : List (String × Any)) :
    finishCount span (copyEvents s l) = 0 := by
  induction l with
  | nil => rfl
  | cons kv rest ih => simpa [copyEvents, finishCount] using ih

theorem finishCount_errorEvents (span s : SpanRef) (err : error) :
    finishCount span (tracing.errorEvents s err) = 0 := by
  cases err <;> rfl

theorem writesTo_copyEvents (span : SpanRef) (l : List (String × Any)) :
    ∀ e ∈ copyEvents span l, e.writesTo span = true := by
  intro e he
  simp only [copyEvents, List.mem_map] at he
  obtain ⟨kv, _, rfl⟩ := he
  simp [Event.writesTo]

theorem writesTo_errorEvents (span : SpanRef) (err : error) :
    ∀ e ∈ tracing.errorEvents span err, e.writesTo span = true := by
  intro e he
  cases err with
  | none => simp [tracing.errorEvents] at he
  | some x =>
    simp only [tracing.errorEvents, List.mem_cons, List.mem_singleton, List.not_mem_nil,
      or_false] at he
    rcases he with rfl | rfl <;> simp [Event.writesTo]

open tracing in
/-- C4: in a reporter lifecycle of any message callbacks followed by one
`PostCall`, the message callbacks leave the world as it is (no call on the span
or on anything else), `PostCall` calls `Finish` on the span exactly once, that
call is the last event of the lifecycle, and every event before it is a
`SetTag` or `LogFields` call on the same span. -/
theorem lifecycle_finishes_span_once (o : opentracingServerReporter) (calls : List MsgCall)
    (err : error) (d : Duration) (range : MapRange) (w : World) :
    (∀ msg e t, o.PostMsgSend msg e t w = w ∧ o.PostMsgReceive msg e t w = w) ∧
    runMsgs o calls w = w ∧
    added w (runMsgs o calls w) = [] ∧
    (lifecycle o calls err d range w).trace = w.trace ++ added w (lifecycle o calls err d range w) ∧
    finishCount o.serverSpan (added w (lifecycle o calls err d range w)) = 1 ∧
    finishCount o.serverSpan (lifecycle o calls err d range w).trace
      = finishCount o.serverSpan w.trace + 1 ∧
    (added w (lifecycle o calls err d range w)).getLast? = some (.finish o.serverSpan) ∧
    (∀ e ∈ (added w (lifecycle o calls err d range w)).dropLast,
      e.writesTo o.serverSpan = true) := by
  have hrun := runMsgs_eq o calls w
  have hadd : added w (lifecycle o calls err d range w) =
      copyEvents o.serverSpan (range.order (ctxtags.Values (ctxtags.Extract o.ctx) w))
        ++ errorEvents o.serverSpan err ++ [.finish o.serverSpan] := by
    rw [lifecycle, hrun, postCall_eq, added_emit]
  have htr : (lifecycle o calls err d range w).trace =
      w.trace ++ added w (lifecycle o calls err d range w) := by
    rw [hadd, lifecycle, hrun, postCall_eq]; rfl
  refine ⟨fun _ _ _ => ⟨rfl, rfl⟩, hrun, ?_, htr, ?_, ?_, ?_, ?_⟩
  · rw [hrun]; simp [added]
  · rw [hadd, finishCount_append, finishCount_append, finishCount_copyEvents,
      finishCount_errorEvents]
    simp [finishCount]
  · rw [htr, finishCount_append, hadd, finishCount_append, finishCount_append,
      finishCount_copyEvents, finishCount_errorEvents]
    simp [finishCount]
  · rw [hadd]; simp
  · rw [hadd, List.dropLast_concat]
    intro e he
    rcases List.mem_append.mp he with h | h
    · exact writesTo_copyEvents _ _ e h
    · exact writesTo_errorEvents _ _ e h

theorem tagOf_append_some (span : SpanRef) (k : String) (a b : List Event) (v : Any)
    (h : tagOf span k b = some v) : tagOf span k (a ++ b) = some v := by
  induction a with
  | nil => simpa using h
  | cons e rest ih => rw [List.cons_append]; simp only [tagOf, ih]

theorem tagOf_append_none (span : SpanRef) (k : String) (a b : List Event)
    (h : tagOf span k b = none) : tagOf span k (a ++ b) = tagOf span k a := by
  induction a with
  | nil => simpa using h
  | cons e rest ih => rw [List.cons_append]; simp only [tagOf, ih]

theorem tagOf_copyEvents_none (span s : SpanRef) (k : String) (l : List (String × Any))
    (h : k ∉ l.map Prod.fst) : tagOf span k (copyEvents s l) = none := by
  induction l with
  | nil => rfl
  | cons kv rest ih =>
    simp only [List.map_cons, List.mem_cons, not_or] at h
    have hr := ih h.2
    simp only [copyEvents, List.map_cons, tagOf] at hr ⊢
    rw [hr]
    have hne : ¬ kv.1 = k := fun e => h.1 e.symm
    simp [hne]

theorem tagOf_copyEvents_mem (span : SpanRef) (k : String) (v : Any) (l : List (String × Any))
    (hnd : (l.map Prod.fst).Nodup) (hm : (k, v) ∈ l) :
    tagOf span k (copyEvents span l) = some v := by
  induction l with
  | nil => simp at hm
  | cons kv rest ih =>
    simp only [List.map_cons, List.nodup_cons] at hnd
    rcases List.mem_cons.mp hm with h | h
    · subst h
      have hr := tagOf_copyEvents_none span span k rest hnd.1
      simp only [copyEvents, List.map_cons, tagOf] at hr ⊢
      rw [hr]
      simp
    · have hr := ih hnd.2 h
      simp only [copyEvents, List.map_cons, tagOf] at hr ⊢
      rw [hr]

theorem tagOf_errorEvents_other (span s : SpanRef) (k : String) (err : error)
    (h : err = none ∨ k ≠ "error") : tagOf span k (tracing.errorEvents s err) = none := by
  cases err with
  | none => rfl
  | some e =>
    have hk : ¬ "error" = k := by
      rcases h with h | h
      · cases h
      · exact fun e => h e.symm
    simp [tracing.errorEvents, tagOf, hk]

theorem tagOf_errorEvents_error (span : SpanRef) (e : GoError) :
    tagOf span "error" (tracing.errorEvents span (some e)) = some (.bool true) := by
  simp [tracing.errorEvents, tagOf]

theorem logsOf_append (span : SpanRef) (a b : List Event) :
    logsOf span (a ++ b) = logsOf span a ++ logsOf span b := by
  induction a with
  | nil => simp [logsOf]
  | cons e rest ih =>
    rw [List.cons_append]
    cases e <;> simp only [logsOf, ih]
    split <;> simp

theorem logsOf_copyEvents (span s : SpanRef) (l : List (String × Any)) :
    logsOf span (copyEvents s l) = [] := by
  induction l with
  | nil => rfl
  | cons kv rest ih => simpa [copyEvents, logsOf] using ih

theorem tagsSet_append (span : SpanRef) (a b : List Event) :
    tagsSet span (a ++ b) = tagsSet span a ++ tagsSet span b := by
  induction a with
  | nil => simp [tagsSet]
  | cons e rest ih =>
    rw [List.cons_append]
    cases e <;> simp only [tagsSet, ih]
    split <;> simp

theorem tagsSet_copyEvents (span : SpanRef) (l : List (String × Any)) :
    tagsSet span (copyEvents span l) = l := by
  induction l with
  | nil => rfl
  | cons kv rest ih =>
    simp only [copyEvents, List.map_cons, tagsSet, if_true] at ih ⊢
    rw [ih]

theorem lookupEntry_mem (k : String) (v : Any) (l : List (String × Any))
    (h : ctxtags.lookupEntry k l = some v) : (k, v) ∈ l := by
  induction l with
  | nil => simp [ctxtags.lookupEntry] at h
  | cons kv rest ih =>
    obtain ⟨k', v'⟩ := kv
    simp only [ctxtags.lookupEntry] at h
    split at h
    · rename_i hk
      subst hk
      simp only [Option.some.injEq] at h
      subst h
      exact List.mem_cons_self _ _
    · exact List.mem_cons_of_mem _ (ih h)

theorem lookupEntry_of_mem (k : String) (v : Any) (l : List (String × Any))
    (hnd : (l.map Prod.fst).Nodup) (hm : (k, v) ∈ l) : ctxtags.lookupEntry k l = some v := by
  induction l with
  | nil => simp at hm
  | cons kv rest ih =>
    obtain ⟨k', v'⟩ := kv
    simp only [List.map_cons, List.nodup_cons] at hnd
    simp only [ctxtags.lookupEntry]
    rcases List.mem_cons.mp hm with h | h
    · cases h
      simp
    · have hk : k ∈ rest.map Prod.fst := List.mem_map.mpr ⟨(k, v), h, rfl⟩
      have hne : ¬ k' = k := fun e => hnd.1 (e ▸ hk)
      rw [if_neg hne]
      exact ih hnd.2 h

theorem lookupEntry_none (k : String) (l : List (String × Any))
    (h : ctxtags.lookupEntry k l = none) : k ∉ l.map Prod.fst := by
  induction l with
  | nil => simp
  | cons kv rest ih =>
    obtain ⟨k', v'⟩ := kv
    simp only [ctxtags.lookupEntry] at h
    split at h
    · simp at h
    · rename_i hk
      simp only [List.map_cons, List.mem_cons, not_or]
      exact ⟨fun e => hk e.symm, ih h⟩

theorem lookupEntry_setEntry (k k' : String) (v' : Any) (l : List (String × Any)) :
    ctxtags.lookupEntry k (ctxtags.setEntry k' v' l) =
      if k' = k then some v' else ctxtags.lookupEntry k l := by
  induction l with
  | nil => simp [ctxtags.setEntry, ctxtags.lookupEntry]
  | cons kv rest ih =>
    obtain ⟨a, b⟩ := kv
    by_cases h : a = k'
    · subst h
      by_cases h2 : a = k
      · simp [ctxtags.setEntry, ctxtags.lookupEntry, h2]
      · simp [ctxtags.setEntry, ctxtags.lookupEntry, h2]
    · by_cases h2 : a = k
      · subst h2
        have h3 : ¬ k' = a := fun e => h e.symm
        simp [ctxtags.setEntry, ctxtags.lookupEntry, h, h3]
      · simp [ctxtags.setEntry, ctxtags.lookupEntry, h, h2, ih]

theorem lookupEntry_append (k : String) (a b : List (String × Any)) :
    ctxtags.lookupEntry k (a ++ b) =
      match ctxtags.lookupEntry k a with
      | some v => some v
      | none => ctxtags.lookupEntry k b := by
  induction a with
  | nil => simp [ctxtags.lookupEntry]
  | cons kv rest ih =>
    obtain ⟨a, b⟩ := kv
    rw [List.cons_append]
    simp only [ctxtags.lookupEntry]
    split
    · rfl
    · exact ih

open tracing in
theorem tagOf_postCall (o : opentracingServerReporter) (err : error) (d : Duration)
    (range : MapRange) (w : World) (k : String) (h : err = none ∨ k ≠ "error") :
    tagOf o.serverSpan k (o.PostCall err d range w).trace =
      match (w.bags (ctxtags.Extract o.ctx)).get k with
      | some v => some v
      | none => tagOf o.serverSpan k w.trace := by
  have hperm := range.perm (ctxtags.Values (ctxtags.Extract o.ctx) w)
  have htr : (o.PostCall err d range w).trace =
      ((w.trace ++ copyEvents o.serverSpan
          (range.order (ctxtags.Values (ctxtags.Extract o.ctx) w)))
        ++ errorEvents o.serverSpan err) ++ [.finish o.serverSpan] := by
    rw [postCall_eq]; simp [World.emit]
  have hfin : tagOf o.serverSpan k [Event.finish o.serverSpan] = none := rfl
  rw [htr, tagOf_append_none _ _ _ _ hfin,
    tagOf_append_none _ _ _ _ (tagOf_errorEvents_other _ _ k err h)]
  cases hg : (w.bags (ctxtags.Extract o.ctx)).get k with
  | none =>
    have hk : k ∉ (range.order (ctxtags.Values (ctxtags.Extract o.ctx) w)).map Prod.fst := by
      intro hm
      exact lookupEntry_none k _ hg (((hperm.map Prod.fst).mem_iff).mp hm)
    simp only []
    rw [tagOf_append_none _ _ _ _ (tagOf_copyEvents_none _ _ k _ hk)]
  | some v =>
    have hm : (k, v) ∈ range.order (ctxtags.Values (ctxtags.Extract o.ctx) w) :=
      (hperm.mem_iff).mpr (lookupEntry_mem k v _ hg)
    have hnd : ((range.order (ctxtags.Values (ctxtags.Extract o.ctx) w)).map Prod.fst).Nodup :=
      ((hperm.map Prod.fst).nodup_iff).mpr (w.bags (ctxtags.Extract o.ctx)).nodup
    simp only []
    exact tagOf_append_some _ _ _ _ v (tagOf_copyEvents_mem _ k v _ hnd hm)

open tracing in
theorem tagOf_postCall_error (o : opentracingServerReporter) (e : GoError) (d : Duration)
    (range : MapRange) (w : World) :
    tagOf o.serverSpan "error" (o.PostCall (some e) d range w).trace = some (.bool true) := by
  have htr : (o.PostCall (some e) d range w).trace =
      ((w.trace ++ copyEvents o.serverSpan
          (range.order (ctxtags.Values (ctxtags.Extract o.ctx) w)))
        ++ errorEvents o.serverSpan (some e)) ++ [.finish o.serverSpan] := by
    rw [postCall_eq]; simp [World.emit]
  have hfin : tagOf o.serverSpan "error" [Event.finish o.serverSpan] = none := rfl
  rw [htr, tagOf_append_none _ _ _ _ hfin]
  exact tagOf_append_some _ _ _ _ _ (tagOf_errorEvents_error _ e)

open tracing in
theorem added_postCall (o : opentracingServerReporter) (err : error) (d : Duration)
    (range : MapRange) (w : World) :
    added w (o.PostCall err d range w) =
      copyEvents o.serverSpan (range.order (ctxtags.Values (ctxtags.Extract o.ctx) w))
        ++ errorEvents o.serverSpan err ++ [.finish o.serverSpan] := by
  rw [postCall_eq, added_emit]

open tracing in
/-- C2 (amended): after `PostCall(err, d)` with a non-nil `err` the span's error
tag is true, whatever the Tag Bag contains, and `PostCall` has logged exactly
one record, with fields `event="error"` and `message=err.Error()`; that holds
if and only if `err` is non-nil. With a nil `err`, `PostCall` logs no fields and
the tags it sets are exactly the Tag Bag's entries, so the error tag afterwards
is the Tag Bag's entry under `error` when there is one and is left as it was
otherwise. -/
theorem postCall_error_flag (o : opentracingServerReporter) (err : error) (d : Duration)
    (range : MapRange) (w : World) :
    (∀ e, err = some e →
      tagOf o.serverSpan "error" (o.PostCall err d range w).trace = some (.bool true) ∧
      logsOf o.serverSpan (added w (o.PostCall err d range w)) =
        [[⟨"event", .str "error"⟩, ⟨"message", .str e.Error⟩]]) ∧
    (err = none →
      logsOf o.serverSpan (added w (o.PostCall err d range w)) = [] ∧
      tagsSet o.serverSpan (added w (o.PostCall err d range w)) =
        range.order (ctxtags.Values (ctxtags.Extract o.ctx) w) ∧
      tagOf o.serverSpan "error" (o.PostCall err d range w).trace =
        match (w.bags (ctxtags.Extract o.ctx)).get "error" with
        | some v => some v
        | none => tagOf o.serverSpan "error" w.trace) ∧
    (err ≠ none ↔
      tagOf o.serverSpan "error" (o.PostCall err d range w).trace = some (.bool true) ∧
      ∃ msg, logsOf o.serverSpan (added w (o.PostCall err d range w)) =
        [[⟨"event", .str "error"⟩, ⟨"message", .str msg⟩]]) := by
  have hsome : ∀ e, err = some e →
      tagOf o.serverSpan "error" (o.PostCall err d range w).trace = some (.bool true) ∧
      logsOf o.serverSpan (added w (o.PostCall err d range w)) =
        [[⟨"event", .str "error"⟩, ⟨"message", .str e.Error⟩]] := by
    intro e he
    subst he
    refine ⟨tagOf_postCall_error o e d range w, ?_⟩
    rw [added_postCall, logsOf_append, logsOf_append, logsOf_copyEvents]
    simp [errorEvents, logsOf]
  have hnone : err = none → logsOf o.serverSpan (added w (o.PostCall err d range w)) = [] := by
    intro he
    subst he
    rw [added_postCall, logsOf_append, logsOf_append, logsOf_copyEvents]
    simp [errorEvents, logsOf]
  refine ⟨hsome, ?_, ?_⟩
  · intro he
    refine ⟨hnone he, ?_, tagOf_postCall o err d range w "error" (Or.inl he)⟩
    subst he
    rw [added_postCall, tagsSet_append, tagsSet_append, tagsSet_copyEvents]
    simp [errorEvents, tagsSet]
  · constructor
    · intro hne
      cases herr : err with
      | none => exact absurd herr hne
      | some e => exact ⟨herr ▸ (hsome e herr).1, e.Error, herr ▸ (hsome e herr).2⟩
    · rintro ⟨_, msg, hlog⟩ he
      rw [hnone he] at hlog
      simp at hlog

open tracing in
/-- Witness for C2: a call that failed with the error `boom`. -/
theorem postCall_error_flag_witness :
    tagOf sampleReporter.serverSpan "error"
        (sampleReporter.PostCall (some (.other "boom")) 0 MapRange.stored World.init).trace
      = some (.bool true) ∧
    logsOf sampleReporter.serverSpan
        (added World.init
          (sampleReporter.PostCall (some (.other "boom")) 0 MapRange.stored World.init))
      = [[⟨"event", .str "error"⟩, ⟨"message", .str (GoError.other "boom").Error⟩]] :=
  (postCall_error_flag sampleReporter (some (.other "boom")) 0 MapRange.stored World.init).1
    (.other "boom") rfl

open tracing in
/-- C2 as stated fails: with the Tag Bag entry `error = true` and a nil `err`,
`PostCall` does set the error tag. -/
theorem nil_error_sets_error_tag :
    Event.setTag 0 "error" (.bool true) ∈
      added (ctxtags.Set 0 "error" (.bool true) World.init).2
        (sampleReporter.PostCall none 0 MapRange.stored
          (ctxtags.Set 0 "error" (.bool true) World.init).2) ∧
    tagOf 0 "error"
      (sampleReporter.PostCall none 0 MapRange.stored
        (ctxtags.Set 0 "error" (.bool true) World.init).2).trace = some (.bool true) := by
  decide

theorem applySets_entries (t : TagsRef) (sets : List (String × Any)) (w : World) :
    ((applySets t sets w).bags t).entries =
      sets.foldl (fun l kv => ctxtags.setEntry kv.1 kv.2 l) (w.bags t).entries := by
  induction sets generalizing w with
  | nil => rfl
  | cons kv rest ih =>
    simp only [applySets, List.foldl_cons] at ih ⊢
    rw [ih]
    simp [ctxtags.Set, ctxtags.Tags.Set]

theorem lookupEntry_foldl_setEntry (k : String) (sets l : List (String × Any)) :
    ctxtags.lookupEntry k (sets.foldl (fun l kv => ctxtags.setEntry kv.1 kv.2 l) l) =
      match lastSet k sets with
      | some v => some v
      | none => ctxtags.lookupEntry k l := by
  induction sets generalizing l with
  | nil => simp [lastSet, ctxtags.lookupEntry]
  | cons kv rest ih =>
    rw [List.foldl_cons, ih]
    simp only [lastSet, List.reverse_cons, lookupEntry_append, lookupEntry_setEntry]
    cases ctxtags.lookupEntry k rest.reverse with
    | some v => rfl
    | none =>
      by_cases h : kv.1 = k
      · simp [ctxtags.lookupEntry, h]
      · simp [ctxtags.lookupEntry, h]

theorem get_applySets (t : TagsRef) (sets : List (String × Any)) (w : World) (k : String) (v : Any)
    (h : lastSet k sets = some v) : ((applySets t sets w).bags t).get k = some v := by
  rw [ctxtags.Tags.get, applySets_entries, lookupEntry_foldl_setEntry, h]

open tracing in
/-- C3 (amended): after `PostCall` the span has, for every key `k` of the Tag
Bag other than the key `error` of a call that ended with a non-nil error, the
tag `k` equal to the bag's value, which after a sequence of `Set` calls is the
value of the last `Set` for `k`. The sequence `Set("custom.string","x")`,
`Set("custom.int",5)`, `Set("custom.string","y")` yields the span tags
`custom.string="y"` and `custom.int=5`. `Set` returns the bag it was called on,
and after the handler of `ExampleExtract_unary` both of its keys are in the
bag. -/
theorem postCall_copies_tag_bag (o : opentracingServerReporter) (err : error) (d : Duration)
    (range : MapRange) (w : World) (sets : List (String × Any)) :
    (∀ k v, (k, v) ∈ ctxtags.Values (ctxtags.Extract o.ctx) w → (err = none ∨ k ≠ "error") →
      tagOf o.serverSpan k (o.PostCall err d range w).trace = some v) ∧
    (∀ k v, lastSet k sets = some v →
      (k, v) ∈ ctxtags.Values (ctxtags.Extract o.ctx) (applySets (ctxtags.Extract o.ctx) sets w)) ∧
    (∀ k v, lastSet k sets = some v → (err = none ∨ k ≠ "error") →
      tagOf o.serverSpan k
        (o.PostCall err d range (applySets (ctxtags.Extract o.ctx) sets w)).trace = some v) ∧
    (tagOf o.serverSpan "custom.string"
        (o.PostCall err d range (applySets (ctxtags.Extract o.ctx)
          [("custom.string", .str "x"), ("custom.int", .int 5), ("custom.string", .str "y")]
          w)).trace = some (.str "y") ∧
      tagOf o.serverSpan "custom.int"
        (o.PostCall err d range (applySets (ctxtags.Extract o.ctx)
          [("custom.string", .str "x"), ("custom.int", .int 5), ("custom.string", .str "y")]
          w)).trace = some (.int 5)) ∧
    (∀ (t : TagsRef) k v (w0 : World), (ctxtags.Set t k v w0).1 = t) ∧
    (∀ (ctx : Context) (ping : Any) (w0 : World),
      ((ctxzap_test.ExampleExtract_unary ctx ping w0).2.bags (ctxtags.Extract ctx)).get
          "custom_tags.string" = some (.str "something") ∧
      ((ctxzap_test.ExampleExtract_unary ctx ping w0).2.bags (ctxtags.Extract ctx)).get
          "custom_tags.int" = some (.int 1337)) := by
  have hcopy : ∀ (w1 : World) k v, (w1.bags (ctxtags.Extract o.ctx)).get k = some v →
      (err = none ∨ k ≠ "error") →
      tagOf o.serverSpan k (o.PostCall err d range w1).trace = some v := by
    intro w1 k v hg hk
    rw [tagOf_postCall o err d range w1 k hk, hg]
  have hlast : ∀ (l : List (String × Any)) k v, lastSet k l = some v →
      (err = none ∨ k ≠ "error") →
      tagOf o.serverSpan k
        (o.PostCall err d range (applySets (ctxtags.Extract o.ctx) l w)).trace = some v :=
    fun l k v hl hk => hcopy _ k v (get_applySets _ l w k v hl) hk
  refine ⟨?_, ?_, hlast sets, ⟨?_, ?_⟩, fun _ _ _ _ => rfl, ?_⟩
  · intro k v hm hk
    exact hcopy w k v (lookupEntry_of_mem k v _ (w.bags (ctxtags.Extract o.ctx)).nodup hm) hk
  · intro k v hl
    exact lookupEntry_mem k v _ (get_applySets _ sets w k v hl)
  · exact hlast _ "custom.string" (.str "y") (by decide) (Or.inr (by decide))
  · exact hlast _ "custom.int" (.int 5) (by decide) (Or.inr (by decide))
  · intro ctx ping w0
    have h : (ctxzap_test.ExampleExtract_unary ctx ping w0).2.bags (ctxtags.Extract ctx) =
        (applySets (ctxtags.Extract ctx)
          [("custom_tags.string", .str "something"), ("custom_tags.int", .int 1337)] w0).bags
          (ctxtags.Extract ctx) := by
      simp [ctxzap_test.ExampleExtract_unary, applySets, ctxtags.Set, ctxzap_test.Info,
        World.emit]
    rw [h]
    exact ⟨get_applySets _ _ w0 _ _ (by decide), get_applySets _ _ w0 _ _ (by decide)⟩

open tracing in
/-- Witness for C3: two `Set` calls for one key, the map walked back to front. -/
theorem postCall_copies_tag_bag_witness :
    lastSet "custom.string" [("custom.string", .str "x"), ("custom.string", .str "y")]
      = some (.str "y") ∧
    tagOf sampleReporter.serverSpan "custom.string"
      (sampleReporter.PostCall none 0 MapRange.reversed
        (applySets (ctxtags.Extract sampleReporter.ctx)
          [("custom.string", .str "x"), ("custom.string", .str "y")] World.init)).trace
      = some (.str "y") :=
  ⟨by decide,
    (postCall_copies_tag_bag sampleReporter none 0 MapRange.reversed World.init
      [("custom.string", .str "x"), ("custom.string", .str "y")]).2.2.1
      "custom.string" (.str "y") (by decide) (Or.inl rfl)⟩

open tracing in
/-- C3 as stated fails: after `Set("error", "x")` and a `PostCall` with a
non-nil error, the span's tag `error` is `true`, not the value last set. -/
theorem error_key_not_last_set :
    lastSet "error" [("error", .str "x")] = some (.str "x") ∧
    tagOf sampleReporter.serverSpan "error"
      (sampleReporter.PostCall (some (.other "boom")) 0 MapRange.stored
        (applySets (ctxtags.Extract sampleReporter.ctx) [("error", .str "x")] World.init)).trace
      = some (.bool true) ∧
    tagOf sampleReporter.serverSpan "error"
      (sampleReporter.PostCall (some (.other "boom")) 0 MapRange.stored
        (applySets (ctxtags.Extract sampleReporter.ctx) [("error", .str "x")] World.init)).trace
      ≠ some (.str "x") := by
  decide

theorem spansStarted_append (a b : List Event) :
    opentracing.spansStarted (a ++ b) = opentracing.spansStarted a + opentracing.spansStarted b := by
  induction a with
  | nil => simp [opentracing.spansStarted]
  | cons e rest ih =>
    rw [List.cons_append]
    cases e <;> simp only [opentracing.spansStarted, ih]
    omega

theorem spansStarted_warning (err : error) :
    opentracing.spansStarted (tracing.warning err) = 0 := by
  cases err with
  | none => rfl
  | some e =>
    simp only [tracing.warning]
    split <;> rfl

open tracing in
theorem newServerSpan_eq (ctx : Context) (tracer : opentracing.Tracer)
    (traceHeaderName fullMethodName : String) (range : MapRange) (w : World) :
    newServerSpanFromInbound ctx tracer traceHeaderName fullMethodName range w =
      ((opentracing.ContextWithSpan ctx (opentracing.spansStarted w.trace),
          opentracing.spansStarted w.trace),
        w.emit (warning (tracer.Extract (metautils.ExtractIncoming ctx)).2
          ++ [.startSpan fullMethodName
                [.RPCServerOption (tracer.Extract (metautils.ExtractIncoming ctx)).1, grpcTag]
                (opentracing.spansStarted w.trace)]
          ++ copyEvents (opentracing.spansStarted w.trace)
              (range.order (ctxtags.Values (ctxtags.Extract ctx) w)))) := by
  have hw : (match (tracer.Extract (metautils.ExtractIncoming ctx)).2 with
      | some e =>
        if e ≠ GoError.ErrSpanContextNotFound then
          grpclog.Infof ("grpc_opentracing: failed parsing trace information: " ++ e.Error) w
        else w
      | none => w) = w.emit (warning (tracer.Extract (metautils.ExtractIncoming ctx)).2) := by
    cases (tracer.Extract (metautils.ExtractIncoming ctx)).2 with
    | none => simp [warning, World.emit]
    | some e =>
      simp only [warning]
      split <;> simp [grpclog.Infof, World.emit]
  simp only [newServerSpanFromInbound, metadataTextMap, hw, opentracing.Tracer.StartSpan,
    injectOpentracingIdsToTags, foldl_setTag, ext.RPCServerOption, emit_emit]
  have hs : opentracing.spansStarted
      (w.emit (warning (tracer.Extract (metautils.ExtractIncoming ctx)).2)).trace
        = opentracing.spansStarted w.trace := by
    simp [World.emit, spansStarted_append, spansStarted_warning]
  rw [hs]
  simp [World.emit, ctxtags.Values]

theorem startSpans_append (a b : List Event) :
    startSpans (a ++ b) = startSpans a ++ startSpans b := by
  induction a with
  | nil => simp [startSpans]
  | cons e rest ih =>
    rw [List.cons_append]
    cases e <;> simp [startSpans, ih]

theorem startSpans_copyEvents (s : SpanRef) (l : List (String × Any)) :
    startSpans (copyEvents s l) = [] := by
  induction l with
  | nil => rfl
  | cons kv rest ih => simpa [copyEvents, startSpans] using ih

theorem startSpans_warning (err : error) : startSpans (tracing.warning err) = [] := by
  cases err with
  | none => rfl
  | some e =>
    simp only [tracing.warning]
    split
    · rfl
    · rfl

theorem infoLines_append (a b : List Event) :
    infoLines (a ++ b) = infoLines a ++ infoLines b := by
  induction a with
  | nil => simp [infoLines]
  | cons e rest ih =>
    rw [List.cons_append]
    cases e <;> simp [infoLines, ih]

theorem infoLines_copyEvents (s : SpanRef) (l : List (String × Any)) :
    infoLines (copyEvents s l) = [] := by
  induction l with
  | nil => rfl
  | cons kv rest ih => simpa [copyEvents, infoLines] using ih

open tracing in
theorem startSpans_newServerSpan (ctx : Context) (tracer : opentracing.Tracer)
    (traceHeaderName fullMethodName : String) (range : MapRange) (w : World) :
    startSpans
        (added w (newServerSpanFromInbound ctx tracer traceHeaderName fullMethodName range w).2) =
      [(fullMethodName,
        [.RPCServerOption (tracer.Extract (metautils.ExtractIncoming ctx)).1, grpcTag],
        opentracing.spansStarted w.trace)] := by
  rw [newServerSpan_eq, added_emit, startSpans_append, startSpans_append, startSpans_warning,
    startSpans_copyEvents]
  rfl

open tracing in
theorem infoLines_newServerSpan (ctx : Context) (tracer : opentracing.Tracer)
    (traceHeaderName fullMethodName : String) (range : MapRange) (w : World) :
    infoLines
        (added w (newServerSpanFromInbound ctx tracer traceHeaderName fullMethodName range w).2) =
      infoLines (warning (tracer.Extract (metautils.ExtractIncoming ctx)).2) := by
  rw [newServerSpan_eq, added_emit, infoLines_append, infoLines_append, infoLines_copyEvents]
  simp [infoLines]

open tracing in
theorem serverReporter_eq (o : opentracingServerReportable) (ctx : Context) (typ : GRPCType)
    (serviceName methodName : String) (range : MapRange) (w : World) :
    o.ServerReporter ctx typ serviceName methodName range w =
      (({ ctx := (newServerSpanFromInbound ctx o.tracer o.traceHeaderName
                    ("/" ++ serviceName ++ "/" ++ methodName) range w).1.1,
          typ := typ, svcName := serviceName, methodName := methodName,
          serverSpan := (newServerSpanFromInbound ctx o.tracer o.traceHeaderName
                    ("/" ++ serviceName ++ "/" ++ methodName) range w).1.2 },
        (newServerSpanFromInbound ctx o.tracer o.traceHeaderName
                    ("/" ++ serviceName ++ "/" ++ methodName) range w).1.1),
       (newServerSpanFromInbound ctx o.tracer o.traceHeaderName
                    ("/" ++ serviceName ++ "/" ++ methodName) range w).2) := by
  rfl

open tracing in
/-- C5: for every service name `s`, method name `m` and inbound context,
`ServerReporter(ctx, typ, s, m)` makes exactly one `StartSpan` call, with the
operation name `"/" ++ s ++ "/" ++ m` and with the component tag (key
`component`, value `gRPC`) among the start options, so that the started span
carries that tag. -/
theorem serverReporter_starts_one_span (o : opentracingServerReportable) (ctx : Context)
    (typ : GRPCType) (s m : String) (range : MapRange) (w : World) :
    startSpans (added w (o.ServerReporter ctx typ s m range w).2) =
      [("/" ++ s ++ "/" ++ m,
        [.RPCServerOption (o.tracer.Extract (metautils.ExtractIncoming ctx)).1, grpcTag],
        opentracing.spansStarted w.trace)] ∧
    opentracing.spansStarted (o.ServerReporter ctx typ s m range w).2.trace =
      opentracing.spansStarted w.trace + 1 ∧
    grpcTag = StartSpanOption.Tag "component" (.str "gRPC") ∧
    ctxtags.lookupEntry "component"
      (opentracing.applyAll
        [.RPCServerOption (o.tracer.Extract (metautils.ExtractIncoming ctx)).1,
          grpcTag]).Tags = some (.str "gRPC") := by
  refine ⟨?_, ?_, rfl, ?_⟩
  · rw [serverReporter_eq]
    exact startSpans_newServerSpan ctx o.tracer o.traceHeaderName _ range w
  · rw [serverReporter_eq, newServerSpan_eq]
    simp only [World.emit, spansStarted_append, spansStarted_warning]
    have hc : ∀ l : List (String × Any),
        opentracing.spansStarted (copyEvents (opentracing.spansStarted w.trace) l) = 0 := by
      intro l
      induction l with
      | nil => rfl
      | cons kv rest ih => simpa [copyEvents, opentracing.spansStarted] using ih
    rw [hc]
    simp [opentracing.spansStarted]
  · cases (o.tracer.Extract (metautils.ExtractIncoming ctx)).1 <;> rfl

open tracing in
/-- C6 (amended): when the tracer's `Extract` returns an error other than
`ErrSpanContextNotFound`, `newServerSpanFromInbound` logs one warning, still
starts one span and returns it with the derived context, and passes the
span-context value that `Extract` returned alongside the error to `StartSpan`
as the parent. When that value is nil the span has no parent, and apart from
the warning the run is the same as in the `ErrSpanContextNotFound` case. -/
theorem malformed_extract_warns_and_proceeds (ctx : Context) (tracer : opentracing.Tracer)
    (traceHeaderName fullMethodName : String) (range : MapRange) (w : World)
    (sc : Option SpanContext) (e : GoError)
    (hex : tracer.Extract (metautils.ExtractIncoming ctx) = (sc, some e))
    (hne : e ≠ GoError.ErrSpanContextNotFound) :
    infoLines
        (added w (newServerSpanFromInbound ctx tracer traceHeaderName fullMethodName range w).2) =
      ["grpc_opentracing: failed parsing trace information: " ++ e.Error] ∧
    startSpans
        (added w (newServerSpanFromInbound ctx tracer traceHeaderName fullMethodName range w).2) =
      [(fullMethodName, [.RPCServerOption sc, grpcTag], opentracing.spansStarted w.trace)] ∧
    (newServerSpanFromInbound ctx tracer traceHeaderName fullMethodName range w).1 =
      (opentracing.ContextWithSpan ctx (opentracing.spansStarted w.trace),
        opentracing.spansStarted w.trace) ∧
    (opentracing.applyAll [.RPCServerOption sc, grpcTag]).ChildOf = sc.toList ∧
    (sc = none → ∀ tracer' : opentracing.Tracer,
      tracer'.Extract (metautils.ExtractIncoming ctx) = (none, some .ErrSpanContextNotFound) →
      (opentracing.applyAll [.RPCServerOption sc, grpcTag]).ChildOf = [] ∧
      (newServerSpanFromInbound ctx tracer traceHeaderName fullMethodName range w).1 =
        (newServerSpanFromInbound ctx tracer' traceHeaderName fullMethodName range w).1 ∧
      added w (newServerSpanFromInbound ctx tracer traceHeaderName fullMethodName range w).2 =
        .infof ("grpc_opentracing: failed parsing trace information: " ++ e.Error) ::
          added w
            (newServerSpanFromInbound ctx tracer' traceHeaderName fullMethodName range w).2) := by
  have hw : warning (some e) =
      [.infof ("grpc_opentracing: failed parsing trace information: " ++ e.Error)] := by
    simp [warning, hne]
  refine ⟨?_, ?_, ?_, ?_, ?_⟩
  · rw [infoLines_newServerSpan, hex, hw]; rfl
  · rw [startSpans_newServerSpan, hex]
  · rw [newServerSpan_eq]
  · cases sc <;> rfl
  · intro hsc tracer' hex'
    subst hsc
    refine ⟨rfl, ?_, ?_⟩
    · rw [newServerSpan_eq, newServerSpan_eq]
    · rw [newServerSpan_eq, newServerSpan_eq, added_emit, added_emit, hex, hex', hw]
      simp [warning]

open tracing in
/-- Witness for C6: a tracer that reports corrupted propagation data. -/
theorem malformed_extract_warns_and_proceeds_witness :
    tracerCorrupted.Extract (metautils.ExtractIncoming Context.background)
      = (none, some (.other "corrupted")) ∧
    GoError.other "corrupted" ≠ GoError.ErrSpanContextNotFound ∧
    infoLines
        (added World.init (newServerSpanFromInbound Context.background tracerCorrupted
          "uber-trace-id" "/Echo/Ping" MapRange.stored World.init).2) =
      ["grpc_opentracing: failed parsing trace information: " ++
        (GoError.other "corrupted").Error] :=
  ⟨rfl, by decide,
    (malformed_extract_warns_and_proceeds Context.background tracerCorrupted "uber-trace-id"
      "/Echo/Ping" MapRange.stored World.init none (.other "corrupted") rfl (by decide)).1⟩

open tracing in
/-- C6 as stated fails: when `Extract` returns the context 7 alongside an error
other than `ErrSpanContextNotFound`, the span is started as a child of 7, while
in the `ErrSpanContextNotFound` case it is started with no parent. -/
theorem malformed_extract_keeps_returned_parent :
    (startSpans
        (added World.init (newServerSpanFromInbound Context.background tracerCorruptedPartial
          "uber-trace-id" "/Echo/Ping" MapRange.stored World.init).2)).map
        (fun c => (opentracing.applyAll c.2.1).ChildOf) = [[7]] ∧
    (startSpans
        (added World.init (newServerSpanFromInbound Context.background tracerNotFound
          "uber-trace-id" "/Echo/Ping" MapRange.stored World.init).2)).map
        (fun c => (opentracing.applyAll c.2.1).ChildOf) = [[]] := by
  decide

open tracing in
/-- C7 (amended): when the tracer's `Extract` over the inbound metadata returns
a propagated context `p` without error, the one span `newServerSpanFromInbound`
starts is an RPC-server span whose child-of reference is exactly `p`. When
`Extract` returns `ErrSpanContextNotFound`, nothing is logged and the span is
started with the span-context value returned alongside that error as its
parent, so it has no parent exactly when that value is nil. In every case the
child-of references of the started span are the span context that `Extract`
returned. -/
theorem extract_result_decides_parent (ctx : Context) (tracer : opentracing.Tracer)
    (traceHeaderName fullMethodName : String) (range : MapRange) (w : World) :
    (∀ p, tracer.Extract (metautils.ExtractIncoming ctx) = (some p, none) →
      startSpans
          (added w
            (newServerSpanFromInbound ctx tracer traceHeaderName fullMethodName range w).2) =
        [(fullMethodName, [ext.RPCServerOption (some p), grpcTag],
          opentracing.spansStarted w.trace)] ∧
      (opentracing.applyAll [ext.RPCServerOption (some p), grpcTag]).ChildOf = [p] ∧
      ctxtags.lookupEntry "span.kind"
        (opentracing.applyAll [ext.RPCServerOption (some p), grpcTag]).Tags
          = some (.str "server") ∧
      infoLines
          (added w
            (newServerSpanFromInbound ctx tracer traceHeaderName fullMethodName range w).2)
        = []) ∧
    (∀ sc : Option SpanContext,
      tracer.Extract (metautils.ExtractIncoming ctx) = (sc, some .ErrSpanContextNotFound) →
      startSpans
          (added w
            (newServerSpanFromInbound ctx tracer traceHeaderName fullMethodName range w).2) =
        [(fullMethodName, [ext.RPCServerOption sc, grpcTag],
          opentracing.spansStarted w.trace)] ∧
      (opentracing.applyAll [ext.RPCServerOption sc, grpcTag]).ChildOf = sc.toList ∧
      ((opentracing.applyAll [ext.RPCServerOption sc, grpcTag]).ChildOf = [] ↔ sc = none) ∧
      infoLines
          (added w
            (newServerSpanFromInbound ctx tracer traceHeaderName fullMethodName range w).2)
        = []) ∧
    (startSpans
        (added w
          (newServerSpanFromInbound ctx tracer traceHeaderName fullMethodName range w).2)).map
        (fun c => (opentracing.applyAll c.2.1).ChildOf) =
      [(tracer.Extract (metautils.ExtractIncoming ctx)).1.toList] := by
  refine ⟨?_, ?_, ?_⟩
  · intro p hex
    refine ⟨?_, rfl, rfl, ?_⟩
    · rw [startSpans_newServerSpan, hex]; rfl
    · rw [infoLines_newServerSpan, hex]; rfl
  · intro sc hex
    refine ⟨?_, ?_, ?_, ?_⟩
    · rw [startSpans_newServerSpan, hex]; rfl
    · cases sc <;> rfl
    · cases sc with
      | none => exact ⟨fun _ => rfl, fun _ => rfl⟩
      | some c =>
        constructor
        · intro h
          have h2 : (opentracing.applyAll [ext.RPCServerOption (some c), grpcTag]).ChildOf
              = [c] := rfl
          rw [h2] at h
          exact absurd h (List.cons_ne_nil _ _)
        · intro h
          exact absurd h (Option.some_ne_none c)
    · rw [infoLines_newServerSpan, hex]; rfl
  · rw [startSpans_newServerSpan]
    cases (tracer.Extract (metautils.ExtractIncoming ctx)).1 <;> rfl

open tracing in
/-- C7 as stated fails: when `Extract` returns the context 0 alongside
`ErrSpanContextNotFound`, nothing is logged and the span is started as a child
of 0, not without a parent. -/
theorem not_found_error_keeps_returned_parent :
    tracerNotFoundPartial.Extract (metautils.ExtractIncoming Context.background)
      = (some 0, some .ErrSpanContextNotFound) ∧
    (startSpans
        (added World.init (newServerSpanFromInbound Context.background tracerNotFoundPartial
          "uber-trace-id" "/Echo/Ping" MapRange.stored World.init).2)).map
        (fun c => (opentracing.applyAll c.2.1).ChildOf) = [[0]] ∧
    infoLines
        (added World.init (newServerSpanFromInbound Context.background tracerNotFoundPartial
          "uber-trace-id" "/Echo/Ping" MapRange.stored World.init).2) = [] := by
  decide

open tracing in
/-- Witness for C7: a tracer that finds the propagated context 7. -/
theorem extract_result_decides_parent_witness :
    tracerFound.Extract (metautils.ExtractIncoming Context.background) = (some 7, none) ∧
    startSpans
        (added World.init (newServerSpanFromInbound Context.background tracerFound
          "uber-trace-id" "/Echo/Ping" MapRange.stored World.init).2) =
      [("/Echo/Ping", [ext.RPCServerOption (some 7), grpcTag], 0)] :=
  ⟨rfl,
    ((extract_result_decides_parent Context.background tracerFound "uber-trace-id" "/Echo/Ping"
      MapRange.stored World.init).1 7 rfl).1⟩

open tracing in
/-- C8: `ServerReporter` returns a context derived from `ctx` whose active span
is the span it has just started, with the metadata, the Tag Bag and every other
value of `ctx` unchanged; the reporter stores exactly that context and exactly
that span. A later `PostCall` therefore
finishes the span found in the returned context and copies the entries of the
Tag Bag found in the returned context. -/
theorem serverReporter_binds_span_and_context (o : opentracingServerReportable) (ctx : Context)
    (typ : GRPCType) (s m : String) (range : MapRange) (w : World) :
    (o.ServerReporter ctx typ s m range w).1.2 =
      opentracing.ContextWithSpan ctx (o.ServerReporter ctx typ s m range w).1.1.serverSpan ∧
    opentracing.SpanFromContext (o.ServerReporter ctx typ s m range w).1.2 =
      some (o.ServerReporter ctx typ s m range w).1.1.serverSpan ∧
    (startSpans (added w (o.ServerReporter ctx typ s m range w).2)).map (fun c => c.2.2) =
      [(o.ServerReporter ctx typ s m range w).1.1.serverSpan] ∧
    ((o.ServerReporter ctx typ s m range w).1.2.incoming = ctx.incoming ∧
      (o.ServerReporter ctx typ s m range w).1.2.values = ctx.values ∧
      ctxtags.Extract (o.ServerReporter ctx typ s m range w).1.2 = ctxtags.Extract ctx) ∧
    (o.ServerReporter ctx typ s m range w).1.1.ctx = (o.ServerReporter ctx typ s m range w).1.2 ∧
    ((o.ServerReporter ctx typ s m range w).1.1.typ = typ ∧
      (o.ServerReporter ctx typ s m range w).1.1.svcName = s ∧
      (o.ServerReporter ctx typ s m range w).1.1.methodName = m) ∧
    (∀ (err : error) (d : Duration) (range2 : MapRange) (w2 : World),
      (added w2 ((o.ServerReporter ctx typ s m range w).1.1.PostCall err d range2 w2)).getLast? =
        (opentracing.SpanFromContext (o.ServerReporter ctx typ s m range w).1.2).map
          Event.finish ∧
      tagsSet (o.ServerReporter ctx typ s m range w).1.1.serverSpan
          (added w2 ((o.ServerReporter ctx typ s m range w).1.1.PostCall err d range2 w2)) =
        range2.order
            (ctxtags.Values (ctxtags.Extract (o.ServerReporter ctx typ s m range w).1.2) w2)
          ++ (if err = none then [] else [("error", .bool true)])) := by
  have hr : o.ServerReporter ctx typ s m range w =
      (({ ctx := opentracing.ContextWithSpan ctx (opentracing.spansStarted w.trace),
          typ := typ, svcName := s, methodName := m,
          serverSpan := opentracing.spansStarted w.trace },
        opentracing.ContextWithSpan ctx (opentracing.spansStarted w.trace)),
       (newServerSpanFromInbound ctx o.tracer o.traceHeaderName
          ("/" ++ s ++ "/" ++ m) range w).2) := by
    rw [serverReporter_eq, newServerSpan_eq]
  have hs := startSpans_newServerSpan ctx o.tracer o.traceHeaderName ("/" ++ s ++ "/" ++ m) range w
  rw [hr]
  refine ⟨rfl, rfl, ?_, ⟨rfl, rfl, rfl⟩, rfl, ⟨rfl, rfl, rfl⟩, ?_⟩
  · simp only [hs, List.map_cons, List.map_nil]
  · intro err d range2 w2
    constructor
    · rw [added_postCall]
      simp [opentracing.SpanFromContext, opentracing.ContextWithSpan]
    · rw [added_postCall, tagsSet_append, tagsSet_append, tagsSet_copyEvents]
      cases err <;> simp [errorEvents, tagsSet, opentracing.ContextWithSpan, ctxtags.Extract]

theorem tmod_thousand_bounds (d : Int) : -1000 < Int.tmod d 1000 ∧ Int.tmod d 1000 < 1000 := by
  cases d with
  | ofNat n =>
    have h : Int.tmod (Int.ofNat n) 1000 = ((n % 1000 : Nat) : Int) := rfl
    rw [h]; omega
  | negSucc n =>
    have h : Int.tmod (Int.negSucc n) 1000 = -(((n + 1) % 1000 : Nat) : Int) := rfl
    rw [h]; omega

theorem cast_tdiv_tmod_thousand (d : Int) :
    (d : ℚ) = 1000 * ((Int.tdiv d 1000 : Int) : ℚ) + ((Int.tmod d 1000 : Int) : ℚ) := by
  have h := Int.tdiv_add_tmod d 1000
  exact_mod_cast h.symm

open grpc_logrus in
/-- C9 (amended): `DurationToTimeMillisField(d)`, which is also
`DefaultDurationToField`, returns the key `grpc.time_ms` and the value
`(d.Nanoseconds() / 1000) / 1000`, where the inner division is Go's integer
division (truncation toward zero, to whole microseconds) and the outer one is
exact. That value equals `d.Nanoseconds() / 1,000,000` exactly when `d` is a
whole number of microseconds, and always differs from it by less than one
microsecond. `DurationToDurationField(d)` returns the key `grpc.duration` and
`d` itself. -/
theorem duration_fields (d : Duration) :
    DurationToTimeMillisField d =
      ("grpc.time_ms", .float32 (((Int.tdiv d 1000 : Int) : ℚ) / 1000)) ∧
    DefaultDurationToField = some DurationToTimeMillisField ∧
    DurationToDurationField d = ("grpc.duration", .duration d) ∧
    (durationToMilliseconds d = (d : ℚ) / 1000000 ↔ (1000 : Int) ∣ d) ∧
    |durationToMilliseconds d - (d : ℚ) / 1000000| < 1 / 1000 := by
  have hd := cast_tdiv_tmod_thousand d
  have hb := tmod_thousand_bounds d
  refine ⟨rfl, rfl, rfl, ?_, ?_⟩
  · simp only [durationToMilliseconds, Nanoseconds]
    rw [Int.dvd_iff_tmod_eq_zero]
    constructor
    · intro he
      have hz : ((Int.tmod d 1000 : Int) : ℚ) = 0 := by
        have he2 : ((Int.tdiv d 1000 : Int) : ℚ) / 1000 =
            (1000 * ((Int.tdiv d 1000 : Int) : ℚ) + ((Int.tmod d 1000 : Int) : ℚ)) / 1000000 := by
          rw [← hd]; exact he
        linarith
      exact_mod_cast hz
    · intro hz
      have hd2 : (d : ℚ) = 1000 * ((Int.tdiv d 1000 : Int) : ℚ) := by
        rw [hz] at hd
        simpa using hd
      rw [hd2]
      ring
  · simp only [durationToMilliseconds, Nanoseconds]
    have h1 : (-1000 : ℚ) < ((Int.tmod d 1000 : Int) : ℚ) := by exact_mod_cast hb.1
    have h2 : ((Int.tmod d 1000 : Int) : ℚ) < 1000 := by exact_mod_cast hb.2
    have he : ((Int.tdiv d 1000 : Int) : ℚ) / 1000 - (d : ℚ) / 1000000 =
        -(((Int.tmod d 1000 : Int) : ℚ) / 1000000) := by
      have hd3 : (d : ℚ) / 1000000 =
          (1000 * ((Int.tdiv d 1000 : Int) : ℚ) + ((Int.tmod d 1000 : Int) : ℚ)) / 1000000 := by
        rw [← hd]
      rw [hd3]
      ring
    rw [he, abs_lt]
    constructor <;> linarith

open grpc_logrus in
/-- C9 as stated fails: for a duration of 1500 ns the value is 1/1000 ms, not
1500/1,000,000 ms. -/
theorem millis_field_truncates_microseconds :
    DurationToTimeMillisField 1500 = ("grpc.time_ms", .float32 (1 / 1000)) ∧
    durationToMilliseconds 1500 ≠ (1500 : ℚ) / 1000000 := by
  have h : Int.tdiv 1500 1000 = 1 := by decide
  have hv : durationToMilliseconds 1500 = 1 / 1000 := by
    simp only [durationToMilliseconds, Nanoseconds, h]
    norm_num
  refine ⟨?_, ?_⟩
  · simp only [DurationToTimeMillisField, hv]
  · rw [hv]; norm_num

open grpc_logrus in
theorem read_write_same (m : Mem) (p : Ptr) (v : options) : (m.write p v).read p = v := by
  cases p <;> simp [Mem.write, Mem.read]

open grpc_logrus in
theorem read_write_other (m : Mem) (p q : Ptr) (v : options) (h : q ≠ p) :
    (m.write p v).read q = m.read q := by
  cases p with
  | defaultOptions =>
    cases q with
    | defaultOptions => exact absurd rfl h
    | heap n => rfl
  | heap i =>
    cases q with
    | defaultOptions => rfl
    | heap n =>
      have hn : n ≠ i := fun e => h (by rw [e])
      simp [Mem.write, Mem.read, hn]

open grpc_logrus in
theorem write_write (m : Mem) (p : Ptr) (a b : options) :
    (m.write p a).write p b = m.write p b := by
  cases p with
  | defaultOptions => rfl
  | heap i =>
    simp only [Mem.write, Mem.mk.injEq, true_and, and_true]
    funext j
    by_cases h : j = i <;> simp [h]

open grpc_logrus in
theorem toOption_eq (s : Setting) :
    s.toOption = some (fun p m => m.write p (s.update (m.read p))) := by
  cases s <;> rfl

open grpc_logrus in
theorem callEach_toOption (specs : List Setting) (p : Ptr) (m : Mem) (v : options) :
    callEach p (specs.map Setting.toOption) (m.write p v) =
      .ok (m.write p (specs.foldl (fun o s => s.update o) v)) := by
  induction specs generalizing v with
  | nil => rfl
  | cons s rest ih =>
    simp only [List.map_cons, List.foldl_cons, toOption_eq, callEach]
    rw [read_write_same, write_write]
    exact ih _

open grpc_logrus in
theorem evaluateServerOpt_eq (x : Externals) (specs : List Setting) (m : Mem) :
    evaluateServerOpt x (specs.map Setting.toOption) m =
      .ok (.heap m.allocated,
        m.new.2.write (.heap m.allocated)
          (specs.foldl (fun o s => s.update o)
            { m.defaultOptions with levelFunc := x.DefaultCodeToLevel })) := by
  simp only [evaluateServerOpt]
  have h1 : m.new.1 = .heap m.allocated := rfl
  have h2 : m.new.2.read .defaultOptions = m.defaultOptions := rfl
  rw [h1, h2, read_write_same, write_write, callEach_toOption]

open grpc_logrus in
theorem evaluateClientOpt_eq (x : Externals) (specs : List Setting) (m : Mem) :
    evaluateClientOpt x (specs.map Setting.toOption) m =
      .ok (.heap m.allocated,
        m.new.2.write (.heap m.allocated)
          (specs.foldl (fun o s => s.update o)
            { m.defaultOptions with levelFunc := x.DefaultClientCodeToLevel })) := by
  simp only [evaluateClientOpt]
  have h1 : m.new.1 = .heap m.allocated := rfl
  have h2 : m.new.2.read .defaultOptions = m.defaultOptions := rfl
  rw [h1, h2, read_write_same, write_write, callEach_toOption]

open grpc_logrus in
theorem read_new_other (m : Mem) (q : Ptr) (h : q ≠ .heap m.allocated) :
    m.new.2.read q = m.read q := by
  cases q with
  | defaultOptions => rfl
  | heap n =>
    have hn : n ≠ m.allocated := fun e => h (by rw [e])
    simp [Mem.new, Mem.read, hn]

open grpc_logrus in
theorem allocated_new_write (m : Mem) (v : options) :
    (m.new.2.write (.heap m.allocated) v).allocated = m.allocated + 1 := rfl

open grpc_logrus in
theorem read_new_write_other (m : Mem) (v : options) (q : Ptr) (h : q ≠ .heap m.allocated) :
    (m.new.2.write (.heap m.allocated) v).read q = m.read q := by
  rw [read_write_other _ _ _ _ h, read_new_other _ _ h]

open grpc_logrus in
/-- C10 (amended): for every list of options returned by `WithDecider`,
`WithLevels`, `WithCodes` and `WithDurationField`, `evaluateServerOpt`
(`evaluateClientOpt`) returns a pointer to a struct it has newly allocated (the
allocation count goes up by one, so the struct is none of those allocated
before and not `defaultOptions`), whose value is the options applied in list
order to a copy of `defaultOptions` with `levelFunc` set to `DefaultCodeToLevel`
(`DefaultClientCodeToLevel`). `defaultOptions` and every struct allocated before
are left unchanged. A later evaluation returns a different pointer, leaves the
earlier result as it is, and gives the value it would have given without the
earlier evaluation. With an empty list the result has the default decider,
error-to-code function and `DefaultDurationToField`; the last option for a field
wins; each constructor returns a non-nil option that changes exactly its own
field of the struct it is applied to and nothing else in memory. -/
theorem evaluate_options (x : Externals) (specs : List Setting) (m : Mem) :
    ∃ ms mc : Mem,
      (evaluateServerOpt x (specs.map Setting.toOption) m = .ok (.heap m.allocated, ms) ∧
        evaluateClientOpt x (specs.map Setting.toOption) m = .ok (.heap m.allocated, mc)) ∧
      (ms.allocated = m.allocated + 1 ∧ mc.allocated = m.allocated + 1 ∧
        Ptr.heap m.allocated ≠ Ptr.defaultOptions) ∧
      (ms.read (.heap m.allocated) =
          specs.foldl (fun o s => s.update o)
            { m.defaultOptions with levelFunc := x.DefaultCodeToLevel } ∧
        mc.read (.heap m.allocated) =
          specs.foldl (fun o s => s.update o)
            { m.defaultOptions with levelFunc := x.DefaultClientCodeToLevel }) ∧
      (ms.defaultOptions = m.defaultOptions ∧ mc.defaultOptions = m.defaultOptions ∧
        (∀ q, q ≠ .heap m.allocated → ms.read q = m.read q) ∧
        (∀ q, q ≠ .heap m.allocated → mc.read q = m.read q)) ∧
      (∀ specs2 : List Setting, ∃ ms2 mc2 : Mem,
        (evaluateServerOpt x (specs2.map Setting.toOption) ms
            = .ok (.heap (m.allocated + 1), ms2) ∧
          evaluateClientOpt x (specs2.map Setting.toOption) ms
            = .ok (.heap (m.allocated + 1), mc2)) ∧
        Ptr.heap (m.allocated + 1) ≠ Ptr.heap m.allocated ∧
        (ms2.read (.heap (m.allocated + 1)) =
            specs2.foldl (fun o s => s.update o)
              { m.defaultOptions with levelFunc := x.DefaultCodeToLevel } ∧
          mc2.read (.heap (m.allocated + 1)) =
            specs2.foldl (fun o s => s.update o)
              { m.defaultOptions with levelFunc := x.DefaultClientCodeToLevel }) ∧
        (ms2.read (.heap m.allocated) = ms.read (.heap m.allocated) ∧
          mc2.read (.heap m.allocated) = ms.read (.heap m.allocated)) ∧
        (ms2.defaultOptions = m.defaultOptions ∧ mc2.defaultOptions = m.defaultOptions) ∧
        (ms2.allocated = m.allocated + 2 ∧ mc2.allocated = m.allocated + 2)) ∧
      (∃ m0 m1 : Mem,
        evaluateServerOpt x [] (Mem.init x) = .ok (.heap 0, m0) ∧
        m0.read (.heap 0) =
          ⟨x.DefaultCodeToLevel, x.DefaultDeciderMethod, x.DefaultErrorToCode,
            DefaultDurationToField⟩ ∧
        evaluateClientOpt x [] (Mem.init x) = .ok (.heap 0, m1) ∧
        m1.read (.heap 0) =
          ⟨x.DefaultClientCodeToLevel, x.DefaultDeciderMethod, x.DefaultErrorToCode,
            DefaultDurationToField⟩) ∧
      ((∀ f, ∃ m2 : Mem,
          evaluateServerOpt x ((specs ++ [Setting.decider f]).map Setting.toOption) m
            = .ok (.heap m.allocated, m2) ∧
          (m2.read (.heap m.allocated)).shouldLog = f) ∧
        (∀ f, ∃ m2 : Mem,
          evaluateServerOpt x ((specs ++ [Setting.levels f]).map Setting.toOption) m
            = .ok (.heap m.allocated, m2) ∧
          (m2.read (.heap m.allocated)).levelFunc = f) ∧
        (∀ f, ∃ m2 : Mem,
          evaluateServerOpt x ((specs ++ [Setting.codes f]).map Setting.toOption) m
            = .ok (.heap m.allocated, m2) ∧
          (m2.read (.heap m.allocated)).codeFunc = f) ∧
        (∀ f, ∃ m2 : Mem,
          evaluateServerOpt x ((specs ++ [Setting.durationField f]).map Setting.toOption) m
            = .ok (.heap m.allocated, m2) ∧
          (m2.read (.heap m.allocated)).durationFunc = f)) ∧
      (∀ (p : Ptr) (m0 : Mem),
        (∀ f, ∃ g, WithDecider f = some g ∧
          (g p m0).read p = { m0.read p with shouldLog := f } ∧
          ∀ q, q ≠ p → (g p m0).read q = m0.read q) ∧
        (∀ f, ∃ g, WithLevels f = some g ∧
          (g p m0).read p = { m0.read p with levelFunc := f } ∧
          ∀ q, q ≠ p → (g p m0).read q = m0.read q) ∧
        (∀ f, ∃ g, WithCodes f = some g ∧
          (g p m0).read p = { m0.read p with codeFunc := f } ∧
          ∀ q, q ≠ p → (g p m0).read q = m0.read q) ∧
        (∀ f, ∃ g, WithDurationField f = some g ∧
          (g p m0).read p = { m0.read p with durationFunc := f } ∧
          ∀ q, q ≠ p → (g p m0).read q = m0.read q)) := by
  have hne : Ptr.heap (m.allocated + 1) ≠ Ptr.heap m.allocated := by
    intro h
    injection h with h
    omega
  have hne' : Ptr.heap m.allocated ≠ Ptr.heap (m.allocated + 1) := fun h => hne h.symm
  refine ⟨_, _, ⟨evaluateServerOpt_eq x specs m, evaluateClientOpt_eq x specs m⟩,
    ⟨rfl, rfl, by simp⟩, ⟨read_write_same _ _ _, read_write_same _ _ _⟩,
    ⟨rfl, rfl, fun q hq => read_new_write_other _ _ q hq,
      fun q hq => read_new_write_other _ _ q hq⟩, ?_, ?_, ⟨?_, ?_, ?_, ?_⟩, ?_⟩
  · intro specs2
    refine ⟨_, _, ⟨evaluateServerOpt_eq x specs2 _, evaluateClientOpt_eq x specs2 _⟩, hne,
      ⟨read_write_same _ _ _, read_write_same _ _ _⟩, ⟨?_, ?_⟩, ⟨rfl, rfl⟩, ⟨rfl, rfl⟩⟩
    · exact read_new_write_other _ _ _ hne'
    · exact read_new_write_other _ _ _ hne'
  · exact ⟨_, _, evaluateServerOpt_eq x [] (Mem.init x), read_write_same _ _ _,
      evaluateClientOpt_eq x [] (Mem.init x), read_write_same _ _ _⟩
  · intro f
    refine ⟨_, evaluateServerOpt_eq x _ m, ?_⟩
    rw [read_write_same, List.foldl_append]; rfl
  · intro f
    refine ⟨_, evaluateServerOpt_eq x _ m, ?_⟩
    rw [read_write_same, List.foldl_append]; rfl
  · intro f
    refine ⟨_, evaluateServerOpt_eq x _ m, ?_⟩
    rw [read_write_same, List.foldl_append]; rfl
  · intro f
    refine ⟨_, evaluateServerOpt_eq x _ m, ?_⟩
    rw [read_write_same, List.foldl_append]; rfl
  · intro p m0
    refine ⟨fun f => ⟨_, rfl, read_write_same _ _ _, fun q hq => read_write_other _ _ _ _ hq⟩,
      fun f => ⟨_, rfl, read_write_same _ _ _, fun q hq => read_write_other _ _ _ _ hq⟩,
      fun f => ⟨_, rfl, read_write_same _ _ _, fun q hq => read_write_other _ _ _ _ hq⟩,
      fun f => ⟨_, rfl, read_write_same _ _ _, fun q hq => read_write_other _ _ _ _ hq⟩⟩

open grpc_logrus in
/-- C10 as stated fails: a list holding a nil option makes the evaluation panic
instead of returning, and an option that assigns to the struct behind
`defaultOptions` leaves that struct changed after the evaluation. -/
theorem nil_option_panics_foreign_option_changes_default :
    (evaluateServerOpt sampleExternals [none] (Mem.init sampleExternals)).toOption.isNone
      = true ∧
    (Mem.init sampleExternals).defaultOptions.levelFunc.isSome = false ∧
    (evaluateServerOpt sampleExternals [overwritesDefault]
        (Mem.init sampleExternals)).toOption.map
      (fun r => r.2.defaultOptions.levelFunc.isSome) = some true := by
  refine ⟨rfl, rfl, rfl⟩

end Middleware
